import Mathlib

/-!
# kubetest2-tf deployer

A shallow embedding of `kubetest2-tf/deployer/deployer.go` and theorems about it.

Conventions of the embedding.

* Go strings are Lean `String`s; Go `map[string]V` is an association list `GoMap V`
  whose keys are distinct (`GoMap.keys m` has no duplicates).
* External tools and library calls whose code is outside the file (terraform, ansible,
  kubectl, the file system, `net/url`, `encoding/json` error texts) are fields of `Env`.
  Every such field that is a call receives the history of events so far, so that its
  answer may differ from one call to the next.
* Every call that acts on the world outside the process appends an `Event` to the
  history; the histories are lists in the order of the calls.
* A call of a method ends in an `Outcome`: it returns, the process exits, or it panics.
* Logging (`klog`, `fmt.Print*`) has no effect on control flow and is left out.
* The output of terraform is a JSON object, `GoMap JVal`: `json.Marshal` of it and
  `json.Unmarshal` of the result into a map of interfaces cannot fail, so the two error
  returns of lines 323-325 and 328-330 have no counterpart.
* `template.Parse` is applied to a constant; the constant is embedded as its parse tree
  `inventoryTemplate`, whose source text is shown to be the constant.
-/

namespace Kubetest2TF

/-! ## Go values -/

/-- Go `error` values built in `deployer.go`: `fmt.Errorf` (and errors passed through
unchanged) carry a message; `metadata.NewJUnitError(err, systemout)` carries the text of
the inner error and the system-out text. -/
inductive GoError where
  | errorf (msg : String)
  | junit (err : String) (systemout : String)
deriving DecidableEq, Repr

/-- How a call of a method of the deployer ends: it returns (with a nil or non-nil
error), the process exits (`os.Exit`), or the Go run time panics. -/
inductive Outcome where
  | returned (err : Option GoError)
  | exited (code : Nat)
  | panicked (what : String)
deriving DecidableEq, Repr

/-- A decoded JSON value, the empty-interface value that `encoding/json` produces. A number keeps
its literal text. -/
inductive JVal where
  | null
  | bool (b : Bool)
  | num (lit : String)
  | str (s : String)
  | arr (xs : List JVal)
  | obj (kvs : List (String × JVal))

/-- Go `map[string]V` as an association list. -/
abbrev GoMap (V : Type) := List (String × V)

/-- The keys of a map. A Go map has each key once: `(GoMap.keys m).Nodup`. -/
def GoMap.keys {V : Type} (m : GoMap V) : List String := m.map Prod.fst

/-- Map read `v, ok := m[k]`. -/
def GoMap.find {V : Type} : GoMap V → String → Option V
  | [], _ => none
  | (k', v) :: rest, k => if k' = k then some v else GoMap.find rest k

/-- Map write `m[k] = v`: the binding of `k` is replaced, or added when absent. -/
def GoMap.set {V : Type} : GoMap V → String → V → GoMap V
  | [], k, v => [(k, v)]
  | (k', v') :: rest, k, v =>
    if k' = k then (k, v) :: rest else (k', v') :: GoMap.set rest k v

/-- The call `maps.Insert(dst, maps.All(src))`: every binding of `src` is written
into `dst`. -/
def mapsInsert {V : Type} (dst src : GoMap V) : GoMap V :=
  src.foldl (fun m kv => GoMap.set m kv.1 kv.2) dst

/-- The call `strings.ToLower` on ASCII text (the two role names it is applied to). -/
def toLower (s : String) : String := ⟨s.data.map Char.toLower⟩

/-- The call `strings.Join(elems, sep)`. -/
def stringsJoin (elems : List String) (sep : String) : String := sep.intercalate elems

/-! ## The inventory -/

/-- The struct `AnsibleInventory`. -/
structure AnsibleInventory where
  Masters : List String
  Workers : List String
deriving DecidableEq, Repr

/-- The method `addMachine`: `reflect` looks the field `mtype` up by name and appends
`value` to it; a name that is not a field leaves the inventory as it is. -/
def AnsibleInventory.addMachine (i : AnsibleInventory) (mtype value : String) :
    AnsibleInventory :=
  if mtype = "Masters" then { i with Masters := i.Masters ++ [value] }
  else if mtype = "Workers" then { i with Workers := i.Workers ++ [value] }
  else i

/-! ## Normalization of the terraform output (lines 319-361 of `Up`) -/

/-- The `switch val := v.(type)` of the vpc branch: a string becomes a one-element list,
a list stays, anything else is formatted with `fmt.Sprintf("%v", val)` (`sprintV`). -/
def coerceVpc (sprintV : JVal → String) : JVal → List JVal
  | .str s => [.str s]
  | .arr xs => xs
  | v => [.str (sprintV v)]

/-- The vpc branch: the loop over `tmp` that fills `normalized[k]` for every key. -/
def normalizeVpc (sprintV : JVal → String) (tmp : GoMap JVal) : GoMap (List JVal) :=
  tmp.foldl (fun normalized kv => GoMap.set normalized kv.1 (coerceVpc sprintV kv.2)) []

/-- What `json.Unmarshal` stores into a slice of interfaces: a JSON array gives its
elements, `null` gives the nil slice, any other value is a type error. -/
def unmarshalSlice : JVal → Option (List JVal)
  | .arr xs => some xs
  | .null => some []
  | _ => none

/-- The call `json.Unmarshal(data, &tfOutput)` with `tfOutput` a map from string to
slice of interfaces: the values are decoded in turn; the earliest value that is not
list-shaped makes the call return an error, whose text `typeErr` gives. -/
def unmarshalListMap (typeErr : JVal → String) :
    GoMap JVal → GoMap (List JVal) → Except String (GoMap (List JVal))
  | [], acc => .ok acc
  | (k, v) :: rest, acc =>
    match unmarshalSlice v with
    | none => .error (typeErr v)
    | some xs => unmarshalListMap typeErr rest (GoMap.set acc k xs)

/-- The inner loop `for _, machineIp := range machineIps`: each element is asserted to be
a string (a failed assertion panics), added to the inventory and appended to
`d.machineIPs`. -/
def addMachines (machineType : String) :
    List JVal → AnsibleInventory → List String → Except Outcome AnsibleInventory × List String
  | [], inv, ips => (.ok inv, ips)
  | .str s :: rest, inv, ips =>
    addMachines machineType rest (inv.addMachine machineType s) (ips ++ [s])
  | _ :: _, _, ips =>
    (.error (.panicked "interface conversion: machineIp is not a string"), ips)

/-- The loop over the machine types `"Masters"`, `"Workers"` (lines 352-361). -/
def collectMachines (tfOutput : GoMap (List JVal)) :
    List String → AnsibleInventory → List String → Except Outcome AnsibleInventory × List String
  | [], inv, ips => (.ok inv, ips)
  | machineType :: more, inv, ips =>
    match GoMap.find tfOutput (toLower machineType) with
    | none =>
      (.error (.returned (some (.errorf
        "error while unmarshaling machine IPs from terraform output"))), ips)
    | some machineIps =>
      match addMachines machineType machineIps inv ips with
      | (.error o, ips1) => (.error o, ips1)
      | (.ok inv1, ips1) => collectMachines tfOutput more inv1 ips1

/-- Lines 319-361 of `Up`: from the output of terraform (`tfMetaOutput`, a JSON object)
to the inventory. `targetProvider` is `d.TargetProvider`, `machineIPs` is `d.machineIPs`;
the second component of the result is `d.machineIPs` afterwards. -/
def normalize (sprintV typeErr : JVal → String) (targetProvider : String)
    (tfMetaOutput : GoMap JVal) (machineIPs : List String) :
    Except Outcome AnsibleInventory × List String :=
  if targetProvider = "vpc" then
    collectMachines (normalizeVpc sprintV tfMetaOutput) ["Masters", "Workers"]
      ⟨[], []⟩ machineIPs
  else
    match unmarshalListMap typeErr tfMetaOutput [] with
    | .error e =>
      (.error (.returned (some (.errorf ("error while unmarshaling data " ++ e)))), machineIPs)
    | .ok tfOutput =>
      collectMachines tfOutput ["Masters", "Workers"] ⟨[], []⟩ machineIPs

/-! ## `net.SplitHostPort`, `net.JoinHostPort` and the client configuration -/

/-- The call `bytealg.IndexByteString`: index of the first `c` in `s`. -/
def indexByte (c : Char) : List Char → Option Nat
  | [] => none
  | x :: rest => if x = c then some 0 else (indexByte c rest).map (fun i => i + 1)

/-- The call `bytealg.LastIndexByteString`: index of the last `c` in `s`. -/
def lastIndexByte (c : Char) : List Char → Option Nat
  | [] => none
  | x :: rest =>
    match lastIndexByte c rest with
    | some i => some (i + 1)
    | none => if x = c then some 0 else none

/-- The reasons for which `net.SplitHostPort` fails. -/
inductive AddrError where
  | missingPort
  | tooManyColons
  | missingBracket
  | unexpectedOpen
  | unexpectedClose
deriving DecidableEq, Repr

/-- The last part of `net.SplitHostPort`: no `[` from position `j` on, no `]` from
position `k` on; the port is what follows the colon at position `i`. -/
def splitTail (s host : List Char) (i j k : Nat) : Except AddrError (String × String) :=
  if (indexByte '[' (s.drop j)).isSome then .error .unexpectedOpen
  else if (indexByte ']' (s.drop k)).isSome then .error .unexpectedClose
  else .ok (⟨host⟩, ⟨s.drop (i + 1)⟩)

/-- The function `net.SplitHostPort` of the Go standard library. The port starts after
the last colon; an address without a colon has no port and is an error. -/
def SplitHostPort (hostport : String) : Except AddrError (String × String) :=
  match lastIndexByte ':' hostport.data with
  | none => .error .missingPort
  | some i =>
    if hostport.data.head? = some '[' then
      match indexByte ']' hostport.data with
      | none => .error .missingBracket
      | some e =>
        if e + 1 = hostport.data.length then .error .missingPort
        else if e + 1 = i then
          splitTail hostport.data ((hostport.data.take e).drop 1) i 1 (e + 1)
        else if hostport.data.get? (e + 1) = some ':' then .error .tooManyColons
        else .error .missingPort
    else
      if (indexByte ':' (hostport.data.take i)).isSome then .error .tooManyColons
      else splitTail hostport.data (hostport.data.take i) i 0 0

/-- The function `net.JoinHostPort` of the Go standard library: a host with a colon is
taken for an IPv6 literal and put in brackets. -/
def JoinHostPort (host port : String) : String :=
  if (indexByte ':' host.data).isSome then "[" ++ host ++ "]:" ++ port
  else host ++ ":" ++ port

/-- The fields of `url.URL`. `Host` is `host` or `host:port`. -/
structure URL where
  Scheme : String
  Opaque : String
  User : Option String
  Host : String
  Path : String
  RawQuery : String
  Fragment : String
deriving DecidableEq, Repr

/-- A cluster entry of the client configuration (`clientcmdapi.Cluster`); only `Server`
is read or written by `deployer.go`. -/
structure Cluster where
  Server : String
deriving DecidableEq, Repr

/-- The client configuration (`clientcmdapi.Config`); only `Clusters` is read or written
by `deployer.go`. -/
structure Config where
  Clusters : GoMap Cluster
deriving DecidableEq, Repr

/-! ## Events, environment, deployer -/

/-- The two values that `d.provider` takes. -/
inductive Provider where
  | vpc
  | powervs
deriving DecidableEq, Repr

/-- The calls that act on the world outside the process, in the order they are made. -/
inductive Event where
  | commonInitialize
  | mkdir (dir : String)
  | dumpCommonConfig (dir : String)
  | dumpProviderConfig (p : Provider) (dir : String)
  | terraformApply (dir provider : String) (ok : Bool)
  | terraformOutput (dir provider : String)
  | createHosts (dir : String)
  | writeHosts (dir text : String)
  | ansiblePlaybook (dir playbook : String) (vars : GoMap String)
  | writeKubeconfig (path : String) (config : Config)
  | setenv (name value : String)
  | kubectlGetNodes
  | dumpClusterLogs
  | terraformDestroy (dir provider : String)
  | exit (code : Nat)
deriving DecidableEq, Repr

/-- What the code calls and reads outside `deployer.go`. An `Option String` result is
the error of the call (`none` is a nil error), an `Except String` result is the pair
of a value and an error. -/
structure Env where
  /-- The call `d.commonOptions.ShouldBuild()`. -/
  shouldBuild : Bool
  /-- The call `d.verifyBuildFlags()`. -/
  verifyBuildFlags : List Event → Option String
  /-- The call `exec.LookPath(dependency)`. -/
  lookPath : String → List Event → Option String
  /-- The value of `common.CommonProvider.ClusterName`. -/
  clusterName : List Event → String
  /-- Whether `os.IsNotExist` holds of the error of `os.Stat(d.tmpDir)`. -/
  statNotExist : String → List Event → Bool
  /-- The call `os.Mkdir(d.tmpDir, 0755)`. -/
  mkdir : String → List Event → Option String
  /-- The call `common.CommonProvider.DumpConfig(d.tmpDir)`. -/
  dumpCommonConfig : String → List Event → Option String
  /-- The call `d.provider.DumpConfig(d.tmpDir)`. -/
  dumpProviderConfig : Provider → String → List Event → Option String
  /-- The call `terraform.Apply(d.tmpDir, d.TargetProvider)`. -/
  terraformApply : String → String → List Event → Except String String
  /-- The call `terraform.Output(d.tmpDir, d.TargetProvider)`. -/
  terraformOutput : String → String → List Event → Except String (GoMap JVal)
  /-- The call `fmt.Sprintf("%v", val)`. -/
  sprintV : JVal → String
  /-- The text of the type error of `json.Unmarshal`. -/
  jsonTypeError : JVal → String
  /-- The call `os.Create(filepath.Join(d.tmpDir, "hosts"))`. -/
  createHosts : String → List Event → Option String
  /-- The writes of `t.Execute(inventoryFile, inventory)`. -/
  writeHosts : String → String → List Event → Option String
  /-- The call `json.Marshal(common.CommonProvider)`, given the value of `ExtraCerts`. -/
  marshalCommonProvider : String → List Event → Except String String
  /-- The call `json.Unmarshal(ansibleParams, &combinedAnsibleVars)`. -/
  unmarshalVars : String → Except String (GoMap String)
  /-- The call `ansible.Playbook(dir, hosts, playbook, vars)`. -/
  ansiblePlaybook : String → String → GoMap String → List Event → Option String
  /-- The value of `common.CommonProvider.KubeconfigPath`. -/
  kubeconfigPath : String
  /-- The call `os.Stat(common.CommonProvider.KubeconfigPath)`. -/
  statKubeconfig : List Event → Option String
  /-- The call `clientcmd.LoadFromFile`; on an error the configuration is nil. -/
  loadKubeconfig : List Event → Except String Config
  /-- The call `url.Parse`. -/
  urlParse : String → Option URL
  /-- The method `(*url.URL).String`. -/
  urlString : URL → String
  /-- The call `filepath.Abs`. -/
  filepathAbs : String → Except String String
  /-- The call `os.Setenv`. -/
  setenv : String → String → List Event → Option String
  /-- The run of `kubectl get nodes -o=name`: the error of `cmd.Run()` and the lines that
  the scanner reads from the captured standard output. -/
  kubectlGetNodes : List Event → Option String × List String
  /-- The call `terraform.Destroy(d.tmpDir, d.TargetProvider)`. -/
  terraformDestroy : String → String → List Event → Option String
  /-- The value of `common.CommonProvider.IgnoreDestroy`. -/
  ignoreDestroy : Bool

/-- The struct `deployer`: the fields that `deployer.go` reads or writes. `doInit` is the
state of the `sync.Once`: whether `Do` has been called. `RetryOnTfFailure` is a Go `int`;
the loop counter of `Up` never exceeds it, so no arithmetic overflows. -/
structure Deployer where
  doInit : Bool
  provider : Option Provider
  tmpDir : String
  machineIPs : List String
  IgnoreClusterDir : Bool
  RetryOnTfFailure : Int
  BreakKubetestOnUpfail : Bool
  Playbook : String
  ExtraVars : GoMap String
  SetKubeconfig : Bool
  TargetProvider : String

/-- The text that `%v` and `%s` print for an error. -/
def GoError.text : GoError → String
  | .errorf msg => msg
  | .junit err _ => err

/-! ## The inventory template (lines 41-50) and its execution -/

/-- A node inside a `range` block: literal text or the action that prints the element. -/
inductive TItem where
  | text (s : String)
  | dot
deriving DecidableEq, Repr

/-- A top-level node of a template: literal text, or a `range` over a field of the data
with a body. -/
inductive TNode where
  | text (s : String)
  | range (field : String) (body : List TItem)
deriving DecidableEq, Repr

/-- Concatenation of texts, in order. -/
def concat : List String → String
  | [] => ""
  | s :: rest => s ++ concat rest

/-- The template text that a body node is parsed from. -/
def TItem.source : TItem → String
  | .text s => s
  | .dot => "\x7b\x7b.\x7d\x7d"

/-- The template text that a node is parsed from. -/
def TNode.source : TNode → String
  | .text s => s
  | .range field body =>
    "\x7b\x7brange ." ++ field ++ "\x7d\x7d" ++ concat (body.map TItem.source)
      ++ "\x7b\x7bend\x7d\x7d"

/-- The constant `inventoryTemplate`, as text. -/
def inventoryTemplateText : String :=
  "[masters]\n\x7b\x7brange .Masters\x7d\x7d\x7b\x7b.\x7d\x7d\n\x7b\x7bend\x7d\x7d\n[workers]\n\x7b\x7brange .Workers\x7d\x7d\x7b\x7b.\x7d\x7d\n\x7b\x7bend\x7d\x7d\n"

/-- The constant `inventoryTemplate`, parsed: `t.Parse(inventoryTemplate)`. -/
def inventoryTemplate : List TNode :=
  [.text "[masters]\n", .range "Masters" [.dot, .text "\n"],
   .text "\n[workers]\n", .range "Workers" [.dot, .text "\n"],
   .text "\n"]

/-- The field of the inventory that a template names, if it has one. -/
def AnsibleInventory.field (i : AnsibleInventory) (name : String) : Option (List String) :=
  if name = "Masters" then some i.Masters
  else if name = "Workers" then some i.Workers
  else none

/-- What a body node prints for the element `elem`. -/
def TItem.exec (elem : String) : TItem → String
  | .text s => s
  | .dot => elem

/-- What a node prints for the data `data`; a `range` prints its body once for each
element of the field, in order, and nothing for an empty field. -/
def TNode.exec (data : AnsibleInventory) : TNode → Except String String
  | .text s => .ok s
  | .range field body =>
    match data.field field with
    | none => .error ("no field " ++ field)
    | some xs => .ok (concat (xs.map (fun x => concat (body.map (TItem.exec x)))))

/-- The method `t.Execute`: the text that the template prints for `data`. -/
def executeTemplate (data : AnsibleInventory) : List TNode → Except String String
  | [] => .ok ""
  | n :: rest =>
    match n.exec data with
    | .error e => .error e
    | .ok a =>
      match executeTemplate data rest with
      | .error e => .error e
      | .ok b => .ok (a ++ b)

/-! ## Initialization (lines 95-129 and 498-505) -/

/-- The variable `dependencies`. -/
def dependencies : List String := ["terraform", "ansible", "kubectl"]

/-- The method `checkDependencies`, as a loop over the dependencies that are left. -/
def checkDependencies (env : Env) (h : List Event) : List String → Option GoError
  | [] => none
  | dependency :: rest =>
    match env.lookPath dependency h with
    | some err =>
      some (.errorf ("failed to find " ++ dependency ++ " in the test environment: " ++ err))
    | none => checkDependencies env h rest

/-- The method `d.initialize` (lines 101-129). -/
def initializeDeployer (env : Env) (d : Deployer) (h : List Event) :
    Deployer × Option GoError × List Event :=
  match (if env.shouldBuild then env.verifyBuildFlags h else none) with
  | some err => (d, some (.errorf ("init failed to check build flags: " ++ err)), h)
  | none =>
    match checkDependencies env h dependencies with
    | some err => (d, some err, h)
    | none =>
      let d1 : Deployer :=
        { d with provider := some (if d.TargetProvider = "vpc" then .vpc else .powervs) }
      let h1 := h ++ [.commonInitialize]
      let d2 : Deployer := { d1 with tmpDir := env.clusterName h1 }
      if env.statNotExist d2.tmpDir h1 then
        match env.mkdir d2.tmpDir h1 with
        | some _ => (d2, some (.errorf ("failed to create dir: " ++ d2.tmpDir)), h1 ++ [.mkdir d2.tmpDir])
        | none => (d2, none, h1 ++ [.mkdir d2.tmpDir])
      else if !d2.IgnoreClusterDir then
        (d2, some (.errorf ("directory named " ++ d2.tmpDir
          ++ " already exist, please choose a different cluster-name")), h1)
      else (d2, none, h1)

/-- The method `d.init` (lines 95-99): `d.doInit.Do` runs `d.initialize` on its first call
only; on every later call the local `err` keeps its zero value, nil. -/
def init (env : Env) (d : Deployer) (h : List Event) :
    Deployer × Option GoError × List Event :=
  if d.doInit then (d, none, h)
  else
    match initializeDeployer env d h with
    | (d1, err, h1) => ({ d1 with doInit := true }, err, h1)

/-! ## `Up` (lines 171-419) -/

/-- Lines 172-184 of `Up`: initialization and the two dumps of the configuration. The
second component is how `Up` ends when it ends here. -/
def upPrologue (env : Env) (d : Deployer) (h : List Event) :
    Deployer × Option Outcome × List Event :=
  match init env d h with
  | (d1, some err, h1) =>
    (d1, some (.returned (some (.errorf ("up failed to init: " ++ err.text)))), h1)
  | (d1, none, h1) =>
    match env.dumpCommonConfig d1.tmpDir h1 with
    | some _ =>
      (d1, some (.returned (some (.errorf ("failed to dump common flags: " ++ d1.tmpDir)))),
        h1 ++ [.dumpCommonConfig d1.tmpDir])
    | none =>
      match d1.provider with
      | none => (d1, some (.panicked "nil pointer dereference"), h1 ++ [.dumpCommonConfig d1.tmpDir])
      | some p =>
        match env.dumpProviderConfig p d1.tmpDir (h1 ++ [.dumpCommonConfig d1.tmpDir]) with
        | some err =>
          (d1, some (.returned (some (.errorf ("failed to dumpconfig to: " ++ d1.tmpDir
            ++ " and err: " ++ err)))),
            h1 ++ [.dumpCommonConfig d1.tmpDir, .dumpProviderConfig p d1.tmpDir])
        | none =>
          (d1, none, h1 ++ [.dumpCommonConfig d1.tmpDir, .dumpProviderConfig p d1.tmpDir])

/-- The loop of lines 185-204, from the value `i` of its counter on: each turn calls
`terraform.Apply` and then `terraform.Output`. The first component is how `Up` ends when
it ends in the loop, and `none` when the loop is left by `break` or by its condition. -/
def applyLoop (env : Env) (d : Deployer) (i : Int) (h : List Event) :
    Option Outcome × List Event :=
  if i ≤ d.RetryOnTfFailure then
    match env.terraformApply d.tmpDir d.TargetProvider h with
    | .error err =>
      if i = d.RetryOnTfFailure then
        if !d.BreakKubetestOnUpfail then
          (some (.returned (some (.errorf ("terraform Apply failed. Error: " ++ err)))),
            h ++ [.terraformApply d.tmpDir d.TargetProvider false,
                  .terraformOutput d.tmpDir d.TargetProvider])
        else
          (some (.exited 1),
            h ++ [.terraformApply d.tmpDir d.TargetProvider false,
                  .terraformOutput d.tmpDir d.TargetProvider, .exit 1])
      else
        applyLoop env d (i + 1)
          (h ++ [.terraformApply d.tmpDir d.TargetProvider false,
                 .terraformOutput d.tmpDir d.TargetProvider])
    | .ok _ =>
      (none, h ++ [.terraformApply d.tmpDir d.TargetProvider true,
                   .terraformOutput d.tmpDir d.TargetProvider])
  else (none, h)
termination_by (d.RetryOnTfFailure + 1 - i).toNat
decreasing_by omega

/-- Lines 363-377 of `Up`: the template is parsed, the file `hosts` of the cluster
directory is created (truncated when it exists) and the template is executed into it. -/
def renderInventory (env : Env) (d : Deployer) (inventory : AnsibleInventory)
    (h : List Event) : Option GoError × List Event :=
  match env.createHosts d.tmpDir h with
  | some err =>
    (some (.errorf ("failed to create ansible inventory file: " ++ err)),
      h ++ [.createHosts d.tmpDir])
  | none =>
    match executeTemplate inventory inventoryTemplate with
    | .error err =>
      (some (.errorf ("ansible inventory file templatation failed: " ++ err)),
        h ++ [.createHosts d.tmpDir])
    | .ok text =>
      match env.writeHosts d.tmpDir text (h ++ [.createHosts d.tmpDir]) with
      | some err =>
        (some (.errorf ("ansible inventory file templatation failed: " ++ err)),
          h ++ [.createHosts d.tmpDir, .writeHosts d.tmpDir text])
      | none => (none, h ++ [.createHosts d.tmpDir, .writeHosts d.tmpDir text])

/-! ## `setKubeconfig` (lines 421-453) and `IsUp` (lines 471-494) -/

/-- The loop of lines 432-443 over the cluster entries: the server URL is parsed, its
host is split into host and port, and the host is replaced. The first entry that fails
ends the loop with its error. -/
def rewriteClusters (env : Env) (host : String) : GoMap Cluster → Except GoError (GoMap Cluster)
  | [] => .ok []
  | (name, c) :: rest =>
    match env.urlParse c.Server with
    | none => .error (.errorf ("failed while Parsing the URL: " ++ c.Server))
    | some surl =>
      match SplitHostPort surl.Host with
      | .error _ => .error (.errorf "errored while SplitHostPort")
      | .ok (_, port) =>
        match rewriteClusters env host rest with
        | .error e => .error e
        | .ok rest1 =>
          .ok ((name, { c with
            Server := env.urlString { surl with Host := JoinHostPort host port } }) :: rest1)

/-- The function `setKubeconfig`. The result of `clientcmd.WriteToFile` is dropped by
the code. -/
def setKubeconfig (env : Env) (host : String) (h : List Event) : Outcome × List Event :=
  match env.statKubeconfig h with
  | some err =>
    (.returned (some (.errorf ("failed to locate the kubeconfig file: " ++ err))), h)
  | none =>
    match env.loadKubeconfig h with
    | .error _ => (.panicked "nil pointer dereference", h)
    | .ok config =>
      match rewriteClusters env host config.Clusters with
      | .error e => (.returned (some e), h)
      | .ok clusters =>
        match env.filepathAbs env.kubeconfigPath with
        | .error err =>
          (.returned (some (.errorf
            ("failed to create absolute path for the kubeconfig file: " ++ err))),
            h ++ [.writeKubeconfig env.kubeconfigPath ⟨clusters⟩])
        | .ok kubecfgAbsPath =>
          match env.setenv "KUBECONFIG" kubecfgAbsPath
              (h ++ [.writeKubeconfig env.kubeconfigPath ⟨clusters⟩]) with
          | some _ =>
            (.returned (some (.errorf "failed to set the KUBECONFIG environment variable")),
              h ++ [.writeKubeconfig env.kubeconfigPath ⟨clusters⟩,
                    .setenv "KUBECONFIG" kubecfgAbsPath])
          | none =>
            (.returned none,
              h ++ [.writeKubeconfig env.kubeconfigPath ⟨clusters⟩,
                    .setenv "KUBECONFIG" kubecfgAbsPath])

/-- The method `IsUp`: one run of `kubectl get nodes -o=name`; the result is the pair
`(up, err)`. -/
def IsUp (env : Env) (h : List Event) : (Bool × Option GoError) × List Event :=
  match env.kubectlGetNodes h with
  | (some err, lines) =>
    ((false, some (.junit err (stringsJoin lines "\n"))), h ++ [.kubectlGetNodes])
  | (none, lines) =>
    if lines.length = 0 then
      ((false, some (.errorf ("project had no nodes active: "
        ++ env.clusterName (h ++ [.kubectlGetNodes])))), h ++ [.kubectlGetNodes])
    else ((true, none), h ++ [.kubectlGetNodes])

/-- Lines 406-418 of `Up`: the health check, whose result is only logged, and the dump
of the cluster logs, whose error is only logged; `Up` returns nil. -/
def upVerify (env : Env) (h : List Event) : Outcome × List Event :=
  (.returned none, (IsUp env h).2 ++ [.dumpClusterLogs])

/-- Lines 379-418 of `Up`: the variables of the playbook are put together, the playbook
is run, the client configuration is rewritten for the first master. -/
def upConfigure (env : Env) (d : Deployer) (inventory : AnsibleInventory) (h : List Event) :
    Outcome × List Event :=
  match env.marshalCommonProvider (stringsJoin inventory.Masters ",") h with
  | .error err =>
    (.returned (some (.errorf ("failed to marshal provider into JSON: " ++ err))), h)
  | .ok ansibleParams =>
    match env.unmarshalVars ansibleParams with
    | .error err =>
      (.returned (some (.errorf ("failed to unmarshal ansible group variables: " ++ err))), h)
    | .ok combinedAnsibleVars =>
      match env.ansiblePlaybook d.tmpDir d.Playbook
          (mapsInsert combinedAnsibleVars d.ExtraVars) h with
      | some err =>
        (.returned (some (.errorf ("failed to run ansible playbook: " ++ err))),
          h ++ [.ansiblePlaybook d.tmpDir d.Playbook (mapsInsert combinedAnsibleVars d.ExtraVars)])
      | none =>
        if d.SetKubeconfig then
          match inventory.Masters with
          | [] =>
            (.panicked "index out of range [0] with length 0",
              h ++ [.ansiblePlaybook d.tmpDir d.Playbook
                (mapsInsert combinedAnsibleVars d.ExtraVars)])
          | master0 :: _ =>
            match setKubeconfig env master0
                (h ++ [.ansiblePlaybook d.tmpDir d.Playbook
                  (mapsInsert combinedAnsibleVars d.ExtraVars)]) with
            | (.returned none, h1) => upVerify env h1
            | (.returned (some err), h1) =>
              (.returned (some (.errorf ("failed to setKubeconfig: " ++ err.text))), h1)
            | (o, h1) => (o, h1)
        else
          upVerify env (h ++ [.ansiblePlaybook d.tmpDir d.Playbook
            (mapsInsert combinedAnsibleVars d.ExtraVars)])

/-- Lines 312-418 of `Up`, after the apply loop: the output of terraform is read and
normalized, the inventory file is rendered, and `Up` goes on to the playbook. -/
def upAfterApply (env : Env) (d : Deployer) (h : List Event) :
    Deployer × Outcome × List Event :=
  match env.terraformOutput d.tmpDir d.TargetProvider h with
  | .error err =>
    (d, .returned (some (.errorf err)), h ++ [.terraformOutput d.tmpDir d.TargetProvider])
  | .ok tfMetaOutput =>
    match normalize env.sprintV env.jsonTypeError d.TargetProvider tfMetaOutput
        d.machineIPs with
    | (.error o, ips) =>
      ({ d with machineIPs := ips }, o, h ++ [.terraformOutput d.tmpDir d.TargetProvider])
    | (.ok inventory, ips) =>
      match renderInventory env d inventory
          (h ++ [.terraformOutput d.tmpDir d.TargetProvider]) with
      | (some err, h1) => ({ d with machineIPs := ips }, .returned (some err), h1)
      | (none, h1) =>
        ({ d with machineIPs := ips },
          upConfigure env { d with machineIPs := ips } inventory h1)

/-- The method `Up`. The result is the deployer afterwards, how the call ends, and the
history with the events of the call appended. -/
def Up (env : Env) (d : Deployer) (h : List Event) : Deployer × Outcome × List Event :=
  match upPrologue env d h with
  | (d1, some o, h1) => (d1, o, h1)
  | (d1, none, h1) =>
    match applyLoop env d1 0 h1 with
    | (some o, h2) => (d1, o, h2)
    | (none, h2) => upAfterApply env d1 h2

/-! ## `Down` (lines 455-469) and sequences of calls -/

/-- The method `Down`. -/
def Down (env : Env) (d : Deployer) (h : List Event) : Deployer × Outcome × List Event :=
  match init env d h with
  | (d1, some err, h1) =>
    (d1, .returned (some (.errorf ("down failed to init: " ++ err.text))), h1)
  | (d1, none, h1) =>
    match env.terraformDestroy d1.tmpDir d1.TargetProvider h1 with
    | some err =>
      if env.ignoreDestroy then
        (d1, .returned none, h1 ++ [.terraformDestroy d1.tmpDir d1.TargetProvider])
      else
        (d1, .returned (some (.errorf ("terraform.Destroy failed: " ++ err))),
          h1 ++ [.terraformDestroy d1.tmpDir d1.TargetProvider])
    | none => (d1, .returned none, h1 ++ [.terraformDestroy d1.tmpDir d1.TargetProvider])

/-- A call of one of the two life-cycle methods. -/
inductive Call where
  | up
  | down
deriving DecidableEq, Repr

/-- A sequence of calls on one deployer: each call starts from the deployer and the
history that the call before left; a call that does not return (exit or panic) ends the
process, so the calls after it are not made. The second component lists how the calls
that were made ended. -/
def runCalls (env : Env) : List Call → Deployer → List Event →
    Deployer × List Outcome × List Event
  | [], d, h => (d, [], h)
  | c :: rest, d, h =>
    match (match c with | .up => Up env d h | .down => Down env d h) with
    | (d1, .returned err, h1) =>
      match runCalls env rest d1 h1 with
      | (d2, outs, h2) => (d2, .returned err :: outs, h2)
    | (d1, o, h1) => (d1, [o], h1)

/-- The deployer that `New` builds (lines 133-161), before the flags are parsed. -/
def New : Deployer :=
  { doInit := false, provider := none, tmpDir := "", machineIPs := [],
    IgnoreClusterDir := false, RetryOnTfFailure := 1, BreakKubetestOnUpfail := false,
    Playbook := "install-k8s.yml", ExtraVars := [], SetKubeconfig := true,
    TargetProvider := "powervs" }

/-! ## Notions used to state the claims -/

/-- The strings of a list of JSON values, when all of them are strings. -/
def stringsOf : List JVal → Option (List String)
  | [] => some []
  | .str s :: rest => (stringsOf rest).map (fun ss => s :: ss)
  | _ :: _ => none

/-- The address list that a well-formed value stands for under vpc: a string stands for
the one-element list, a list of strings for itself. -/
def vpcAddresses : JVal → Option (List String)
  | .str s => some [s]
  | .arr xs => stringsOf xs
  | _ => none

/-- The address list that a well-formed value stands for under powervs: a list of
strings. -/
def powervsAddresses : JVal → Option (List String)
  | .arr xs => stringsOf xs
  | _ => none

/-- Whether the text `s` has `p` as a contiguous part. -/
def hasInfix (p : List Char) : List Char → Bool
  | [] => p.isEmpty
  | c :: rest => p.isPrefixOf (c :: rest) || hasInfix p rest

/-- Whether the message of an error mentions the text `key`. -/
def GoError.mentions : GoError → String → Bool
  | .errorf msg, key => hasInfix key.data msg.data
  | .junit err systemout, key => hasInfix key.data err.data || hasInfix key.data systemout.data

/-- The results of the calls of `terraform.Apply` in a list of events, in order: `true`
for a call that succeeded. -/
def applyResults : List Event → List Bool
  | [] => []
  | .terraformApply _ _ ok :: rest => ok :: applyResults rest
  | _ :: rest => applyResults rest

/-- The events that the apply loop of `Up` appends to the history `h`. -/
def loopEvents (env : Env) (d : Deployer) (h : List Event) : List Event :=
  (applyLoop env d 0 h).2.drop h.length

/-- The events of one turn of the apply loop in which `terraform.Apply` fails. -/
def failedTurn (d : Deployer) : List Event :=
  [.terraformApply d.tmpDir d.TargetProvider false, .terraformOutput d.tmpDir d.TargetProvider]

/-- The events of `n` turns in a row in which `terraform.Apply` fails. -/
def failedTurns (d : Deployer) : Nat → List Event
  | 0 => []
  | n + 1 => failedTurn d ++ failedTurns d n

/-- The text of the inventory file for an inventory: the masters section, then the
workers section, one address per line, one empty line after each section. -/
def inventoryText (inv : AnsibleInventory) : String :=
  "[masters]\n" ++ concat (inv.Masters.map (fun m => m ++ "\n")) ++ "\n[workers]\n"
    ++ concat (inv.Workers.map (fun w => w ++ "\n")) ++ "\n"

/-! ## Sample inputs -/

/-- A URL parser for the two sample server URLs: what `url.Parse` returns for them. -/
def sampleUrlParse (s : String) : Option URL :=
  if s = "https://192.168.0.1:6443" then some ⟨"https", "", none, "192.168.0.1:6443", "", "", ""⟩
  else if s = "https://10.0.0.1" then some ⟨"https", "", none, "10.0.0.1", "", "", ""⟩
  else none

/-- An environment in which every tool succeeds: terraform reports one master (as a bare
string) and two workers, the client configuration has one cluster with an explicit port,
and `kubectl` lists one node. -/
def envOk : Env :=
  { shouldBuild := false,
    verifyBuildFlags := fun _ => none,
    lookPath := fun _ _ => none,
    clusterName := fun _ => "k8s-cluster",
    statNotExist := fun _ _ => true,
    mkdir := fun _ _ => none,
    dumpCommonConfig := fun _ _ => none,
    dumpProviderConfig := fun _ _ _ => none,
    terraformApply := fun _ _ _ => .ok "k8s-cluster/terraform.tfstate",
    terraformOutput := fun _ _ _ =>
      .ok [("masters", .str "10.0.0.1"), ("workers", .arr [.str "10.0.0.2", .str "10.0.0.3"])],
    sprintV := fun _ => "",
    jsonTypeError := fun _ => "json: cannot unmarshal value into Go value",
    createHosts := fun _ _ => none,
    writeHosts := fun _ _ _ => none,
    marshalCommonProvider := fun extraCerts _ => .ok extraCerts,
    unmarshalVars := fun extraCerts => .ok [("extra_cert", extraCerts), ("release", "ci/latest")],
    ansiblePlaybook := fun _ _ _ _ => none,
    kubeconfigPath := "kubeconfig",
    statKubeconfig := fun _ => none,
    loadKubeconfig := fun _ => .ok ⟨[("kubernetes", ⟨"https://192.168.0.1:6443"⟩)]⟩,
    urlParse := sampleUrlParse,
    urlString := fun u => u.Scheme ++ "://" ++ u.Host ++ u.Path,
    filepathAbs := fun path => .ok ("/home/ci/" ++ path),
    setenv := fun _ _ _ => none,
    kubectlGetNodes := fun _ => (none, ["node/master-0"]),
    terraformDestroy := fun _ _ _ => none,
    ignoreDestroy := false }

/-- As `envOk`, but every `terraform.Apply` fails. -/
def envApplyFails : Env :=
  { envOk with terraformApply := fun _ _ _ => .error "quota exceeded" }

/-- As `envOk`, but the first `terraform.Apply` of the history fails and every later one
succeeds. -/
def envApplyFailsOnce : Env :=
  { envOk with terraformApply := fun _ _ h =>
      if (applyResults h).length = 0 then .error "timeout" else .ok "k8s-cluster/terraform.tfstate" }

/-- The deployer of `New` with the retry bound set to 0. -/
def dNoRetry : Deployer := { New with RetryOnTfFailure := 0 }

/-- The deployer of `New` after a successful initialization under `envOk`. -/
def dReady : Deployer :=
  { New with doInit := true, provider := some .powervs, tmpDir := "k8s-cluster" }

/-- As `dReady`, for the vpc provider. -/
def dReadyVpc : Deployer :=
  { New with doInit := true, provider := some .vpc, tmpDir := "k8s-cluster",
             TargetProvider := "vpc" }

/-- The raw output of the scenario of the specification: one master as a bare string and
two workers as a list. -/
def rawScenario : GoMap JVal :=
  [("masters", .str "10.0.0.1"), ("workers", .arr [.str "10.0.0.2", .str "10.0.0.3"])]

/-- A raw output whose masters and workers are lists of strings and which has one more
output, a string. -/
def rawExtraScalar : GoMap JVal :=
  [("masters", .arr [.str "10.0.0.1"]), ("workers", .arr [.str "10.0.0.2"]),
   ("region", .str "us-south")]

/-- A raw output of lists only. -/
def rawLists : GoMap JVal :=
  [("masters", .arr [.str "10.0.0.1"]), ("workers", .arr [.str "10.0.0.2"]),
   ("bastion", .arr [.str "10.0.0.9"])]

/-- A raw output without the key `workers`. -/
def rawNoWorkers : GoMap JVal := [("masters", .arr [.str "10.0.0.1"])]

/-- A raw output whose workers are the empty list. -/
def rawEmptyWorkers : GoMap JVal := [("masters", .arr [.str "10.0.0.1"]), ("workers", .arr [])]

/-- As `envOk`, but terraform reports an empty list of workers. -/
def envEmptyWorkers : Env :=
  { envOk with terraformOutput := fun _ _ _ => .ok rawEmptyWorkers }

/-- A raw output whose masters are the empty list. -/
def rawEmptyMasters : GoMap JVal := [("masters", .arr []), ("workers", .arr [.str "10.0.0.2"])]

/-- As `envOk`, but terraform reports an empty list of masters. -/
def envEmptyMasters : Env :=
  { envOk with terraformOutput := fun _ _ _ => .ok rawEmptyMasters }

/-- As `envOk`, but `kubectl` succeeds and prints nothing. -/
def envNoNodes : Env :=
  { envOk with kubectlGetNodes := fun _ => (none, []) }

/-- As `envOk`, but `kubectl` fails after printing two lines. -/
def envProbeFails : Env :=
  { envOk with kubectlGetNodes := fun _ =>
      (some "exit status 1", ["error: connection refused", "unable to list nodes"]) }

/-- Sample base variables, with a key that the sample overrides set too. -/
def sampleBase : GoMap String := [("release", "ci/latest"), ("runtime", "containerd")]

/-- Sample override variables. -/
def sampleExtra : GoMap String := [("release", "v1.31.0"), ("cni", "calico")]

/-- As `envOk`, but the server URL of the cluster entry has no port. -/
def envNoPort : Env :=
  { envOk with loadKubeconfig := fun _ => .ok ⟨[("kubernetes", ⟨"https://10.0.0.1"⟩)]⟩ }

/-- As `envOk`, but the cluster directory exists already. -/
def envDirExists : Env :=
  { envOk with statNotExist := fun _ _ => false }

/-- As `envOk`, but `terraform` is not installed. -/
def envNoTerraform : Env :=
  { envOk with lookPath := fun dependency _ =>
      if dependency = "terraform" then some "executable file not found in $PATH" else none }

/-! ## Lemmas on maps -/

theorem GoMap.find_set {V : Type} (m : GoMap V) (k k' : String) (v : V) :
    GoMap.find (GoMap.set m k v) k' = if k = k' then some v else GoMap.find m k' := by
  induction m with
  | nil => simp [GoMap.set, GoMap.find]
  | cons kv rest ih =>
    obtain ⟨k0, v0⟩ := kv
    by_cases h0 : k0 = k
    · subst h0
      by_cases h1 : k0 = k'
      · simp [GoMap.set, GoMap.find, h1]
      · simp [GoMap.set, GoMap.find, h1]
    · by_cases h1 : k = k'
      · subst h1
        simp [GoMap.set, GoMap.find, h0, ih]
      · simp [GoMap.set, GoMap.find, h0, ih, h1]

theorem GoMap.find_eq_none_of_not_mem {V : Type} (m : GoMap V) (k : String)
    (hk : k ∉ GoMap.keys m) : GoMap.find m k = none := by
  induction m with
  | nil => rfl
  | cons kv rest ih =>
    obtain ⟨k0, v0⟩ := kv
    simp only [GoMap.keys, List.map_cons, List.mem_cons, not_or] at hk
    have h0 : ¬ k0 = k := fun e => hk.1 e.symm
    simp only [GoMap.find, h0, if_false]
    exact ih hk.2

theorem GoMap.find_foldl_set {V W : Type} (f : V → W) (l : GoMap V) :
    ∀ (acc : GoMap W) (k : String), (GoMap.keys l).Nodup →
      GoMap.find (l.foldl (fun m kv => GoMap.set m kv.1 (f kv.2)) acc) k
        = match GoMap.find l k with
          | some v => some (f v)
          | none => GoMap.find acc k := by
  induction l with
  | nil => intro acc k _; rfl
  | cons kv rest ih =>
    intro acc k hnd
    obtain ⟨k0, v0⟩ := kv
    simp only [GoMap.keys, List.map_cons, List.nodup_cons] at hnd
    rw [List.foldl_cons, ih _ _ hnd.2]
    by_cases h0 : k0 = k
    · subst h0
      rw [GoMap.find_eq_none_of_not_mem rest k0 hnd.1]
      simp [GoMap.find, GoMap.find_set]
    · simp [GoMap.find, GoMap.find_set, h0]

theorem GoMap.find_foldl_set_absent {V W : Type} (f : V → W) (l : GoMap V) :
    ∀ (acc : GoMap W) (k : String), GoMap.find l k = none →
      GoMap.find (l.foldl (fun m kv => GoMap.set m kv.1 (f kv.2)) acc) k = GoMap.find acc k := by
  induction l with
  | nil => intro acc k _; rfl
  | cons kv rest ih =>
    intro acc k hk
    obtain ⟨k0, v0⟩ := kv
    by_cases h0 : k0 = k
    · simp [GoMap.find, h0] at hk
    · simp only [GoMap.find, h0, if_false] at hk
      rw [List.foldl_cons, ih _ _ hk]
      simp [GoMap.find_set, h0]

/-! ## Lemmas on the normalization -/

theorem stringsOf_eq_some : ∀ (xs : List JVal) (ss : List String),
    stringsOf xs = some ss → xs = ss.map JVal.str := by
  intro xs
  induction xs with
  | nil => intro ss h; simp [stringsOf] at h; subst h; rfl
  | cons x rest ih =>
    intro ss h
    cases x with
    | str s =>
      simp only [stringsOf, Option.map_eq_some'] at h
      obtain ⟨ss1, h1, h2⟩ := h
      subst h2
      simp [ih ss1 h1]
    | null => simp [stringsOf] at h
    | bool b => simp [stringsOf] at h
    | num l => simp [stringsOf] at h
    | arr l => simp [stringsOf] at h
    | obj l => simp [stringsOf] at h

theorem addMachines_masters : ∀ (ss : List String) (inv : AnsibleInventory) (ips : List String),
    addMachines "Masters" (ss.map JVal.str) inv ips
      = (.ok ⟨inv.Masters ++ ss, inv.Workers⟩, ips ++ ss) := by
  intro ss
  induction ss with
  | nil => intro inv ips; simp [addMachines]
  | cons s rest ih =>
    intro inv ips
    simp [addMachines, ih, AnsibleInventory.addMachine]

theorem addMachines_workers : ∀ (ss : List String) (inv : AnsibleInventory) (ips : List String),
    addMachines "Workers" (ss.map JVal.str) inv ips
      = (.ok ⟨inv.Masters, inv.Workers ++ ss⟩, ips ++ ss) := by
  intro ss
  induction ss with
  | nil => intro inv ips; simp [addMachines]
  | cons s rest ih =>
    intro inv ips
    simp [addMachines, ih, AnsibleInventory.addMachine]

theorem toLower_masters : toLower "Masters" = "masters" := by decide

theorem toLower_workers : toLower "Workers" = "workers" := by decide

theorem collectMachines_roles (tfOutput : GoMap (List JVal)) (ms ws ips : List String)
    (hm : GoMap.find tfOutput "masters" = some (ms.map JVal.str))
    (hw : GoMap.find tfOutput "workers" = some (ws.map JVal.str)) :
    collectMachines tfOutput ["Masters", "Workers"] ⟨[], []⟩ ips
      = (.ok ⟨ms, ws⟩, ips ++ ms ++ ws) := by
  simp [collectMachines, toLower_masters, toLower_workers, hm, hw, addMachines_masters,
    addMachines_workers]

theorem collectMachines_no_workers (tfOutput : GoMap (List JVal)) (inv : AnsibleInventory)
    (ips : List String) (hw : GoMap.find tfOutput "workers" = none) (inv1 : AnsibleInventory) :
    (collectMachines tfOutput ["Masters", "Workers"] inv ips).1 ≠ .ok inv1 := by
  simp only [collectMachines, toLower_masters, toLower_workers, hw]
  cases GoMap.find tfOutput "masters" with
  | none => simp
  | some l =>
    simp only
    rcases addMachines "Masters" l inv ips with ⟨r, ips1⟩
    cases r with
    | error o => simp
    | ok i => simp

theorem unmarshalListMap_ok (typeErr : JVal → String) (raw : GoMap JVal) :
    ∀ (acc : GoMap (List JVal)), (∀ kv ∈ raw, (unmarshalSlice kv.2).isSome = true) →
      unmarshalListMap typeErr raw acc
        = .ok (raw.foldl (fun m kv => GoMap.set m kv.1 ((unmarshalSlice kv.2).getD [])) acc) := by
  induction raw with
  | nil => intro acc _; rfl
  | cons kv rest ih =>
    intro acc hall
    obtain ⟨k, v⟩ := kv
    have hv := hall (k, v) (List.mem_cons_self _ _)
    have hrest : ∀ kv ∈ rest, (unmarshalSlice kv.2).isSome = true :=
      fun kv hkv => hall kv (List.mem_cons_of_mem _ hkv)
    cases hs : unmarshalSlice v with
    | none => simp [hs] at hv
    | some xs => simp [unmarshalListMap, hs, ih _ hrest]

theorem unmarshalListMap_find_absent (typeErr : JVal → String) (raw : GoMap JVal) :
    ∀ (acc m : GoMap (List JVal)) (k : String), GoMap.find raw k = none →
      unmarshalListMap typeErr raw acc = .ok m → GoMap.find m k = GoMap.find acc k := by
  induction raw with
  | nil => intro acc m k _ h; simp [unmarshalListMap] at h; subst h; rfl
  | cons kv rest ih =>
    intro acc m k hk h
    obtain ⟨k0, v0⟩ := kv
    by_cases h0 : k0 = k
    · simp [GoMap.find, h0] at hk
    · simp only [GoMap.find, h0, if_false] at hk
      cases hs : unmarshalSlice v0 with
      | none => simp [unmarshalListMap, hs] at h
      | some xs =>
        simp only [unmarshalListMap, hs] at h
        rw [ih _ _ _ hk h]
        simp [GoMap.find_set, h0]

theorem normalize_ok (sprintV typeErr : JVal → String) (tp : String) (raw : GoMap JVal)
    (mv wv : JVal) (ms ws ips : List String)
    (hkeys : (GoMap.keys raw).Nodup)
    (hm : GoMap.find raw "masters" = some mv) (hw : GoMap.find raw "workers" = some wv)
    (hshape : if tp = "vpc" then vpcAddresses mv = some ms ∧ vpcAddresses wv = some ws
      else powervsAddresses mv = some ms ∧ powervsAddresses wv = some ws
        ∧ ∀ kv ∈ raw, (unmarshalSlice kv.2).isSome = true) :
    normalize sprintV typeErr tp raw ips = (.ok ⟨ms, ws⟩, ips ++ ms ++ ws) := by
  by_cases htp : tp = "vpc"
  · simp only [htp, if_true] at hshape
    have hc : ∀ (v : JVal) (ss : List String), vpcAddresses v = some ss →
        coerceVpc sprintV v = ss.map JVal.str := by
      intro v ss hv
      cases v with
      | str s => simp [vpcAddresses] at hv; subst hv; rfl
      | arr xs => exact stringsOf_eq_some xs ss hv
      | null => simp [vpcAddresses] at hv
      | bool b => simp [vpcAddresses] at hv
      | num l => simp [vpcAddresses] at hv
      | obj l => simp [vpcAddresses] at hv
    simp only [normalize, htp, if_true]
    apply collectMachines_roles
    · simp only [normalizeVpc]
      rw [GoMap.find_foldl_set (coerceVpc sprintV) raw [] "masters" hkeys, hm]
      simp [hc mv ms hshape.1]
    · simp only [normalizeVpc]
      rw [GoMap.find_foldl_set (coerceVpc sprintV) raw [] "workers" hkeys, hw]
      simp [hc wv ws hshape.2]
  · simp only [htp, if_false] at hshape
    obtain ⟨h1, h2, hall⟩ := hshape
    have hc : ∀ (v : JVal) (ss : List String), powervsAddresses v = some ss →
        (unmarshalSlice v).getD [] = ss.map JVal.str := by
      intro v ss hv
      cases v with
      | arr xs => exact stringsOf_eq_some xs ss hv
      | str s => simp [powervsAddresses] at hv
      | null => simp [powervsAddresses] at hv
      | bool b => simp [powervsAddresses] at hv
      | num l => simp [powervsAddresses] at hv
      | obj l => simp [powervsAddresses] at hv
    simp only [normalize, htp, if_false, unmarshalListMap_ok typeErr raw [] hall]
    apply collectMachines_roles
    · rw [GoMap.find_foldl_set (fun v => (unmarshalSlice v).getD []) raw [] "masters" hkeys, hm]
      simp [hc mv ms h1]
    · rw [GoMap.find_foldl_set (fun v => (unmarshalSlice v).getD []) raw [] "workers" hkeys, hw]
      simp [hc wv ws h2]

theorem normalize_no_workers_not_ok (sprintV typeErr : JVal → String) (tp : String)
    (raw : GoMap JVal) (ips : List String) (hw : GoMap.find raw "workers" = none)
    (inv : AnsibleInventory) : (normalize sprintV typeErr tp raw ips).1 ≠ .ok inv := by
  by_cases htp : tp = "vpc"
  · simp only [normalize, htp, if_true]
    apply collectMachines_no_workers
    simp only [normalizeVpc]
    rw [GoMap.find_foldl_set_absent (coerceVpc sprintV) raw [] "workers" hw]
    rfl
  · simp only [normalize, htp, if_false]
    cases hu : unmarshalListMap typeErr raw [] with
    | error e => simp
    | ok m =>
      simp only
      apply collectMachines_no_workers
      rw [unmarshalListMap_find_absent typeErr raw [] m "workers" hw hu]
      rfl

/-! ## Lemmas on the apply loop -/

theorem failedTurns_succ_right (d : Deployer) : ∀ (k : Nat),
    failedTurns d (k + 1) = failedTurns d k ++ failedTurn d := by
  intro k
  induction k with
  | zero => simp [failedTurns]
  | succ k ih =>
    calc failedTurns d (k + 1 + 1) = failedTurn d ++ failedTurns d (k + 1) := rfl
      _ = failedTurn d ++ (failedTurns d k ++ failedTurn d) := by rw [ih]
      _ = failedTurns d (k + 1) ++ failedTurn d := by
        rw [← List.append_assoc]; rfl

theorem applyResults_append : ∀ (xs ys : List Event),
    applyResults (xs ++ ys) = applyResults xs ++ applyResults ys := by
  intro xs ys
  induction xs with
  | nil => rfl
  | cons x rest ih => cases x <;> simp [applyResults, ih]

theorem applyResults_failedTurns (d : Deployer) : ∀ (k : Nat),
    applyResults (failedTurns d k) = List.replicate k false := by
  intro k
  induction k with
  | zero => rfl
  | succ k ih =>
    simp [failedTurns, failedTurn, applyResults_append, applyResults, ih, List.replicate_succ]

/-- The apply loop from counter `i` on, with `m` retries left after the turn `i`: either
some turn `k ≤ m` is the first whose apply succeeds and the loop is left there, or all
`m + 1` turns fail and `Up` ends in the loop. -/
theorem applyLoop_turns (env : Env) (d : Deployer) : ∀ (m : Nat) (i : Int) (h : List Event),
    d.RetryOnTfFailure - i = m →
    (∃ k p, k ≤ m ∧
      env.terraformApply d.tmpDir d.TargetProvider (h ++ failedTurns d k) = .ok p ∧
      applyLoop env d i h
        = (none, h ++ failedTurns d k ++ [.terraformApply d.tmpDir d.TargetProvider true,
            .terraformOutput d.tmpDir d.TargetProvider]))
    ∨ (∃ e, env.terraformApply d.tmpDir d.TargetProvider (h ++ failedTurns d m) = .error e ∧
      applyLoop env d i h
        = if d.BreakKubetestOnUpfail then
            (some (.exited 1), h ++ failedTurns d (m + 1) ++ [.exit 1])
          else
            (some (.returned (some (.errorf ("terraform Apply failed. Error: " ++ e)))),
              h ++ failedTurns d (m + 1))) := by
  intro m
  induction m with
  | zero =>
    intro i h hi
    have hiN : i = d.RetryOnTfFailure := by
      have : d.RetryOnTfFailure - i = 0 := by simpa using hi
      omega
    have hle : i ≤ d.RetryOnTfFailure := by omega
    cases ha : env.terraformApply d.tmpDir d.TargetProvider h with
    | ok p =>
      left
      refine ⟨0, p, le_refl _, by simpa [failedTurns] using ha, ?_⟩
      rw [applyLoop]
      simp [hle, ha, failedTurns]
    | error e =>
      right
      refine ⟨e, by simpa [failedTurns] using ha, ?_⟩
      rw [applyLoop]
      cases hb : d.BreakKubetestOnUpfail <;>
        simp [hle, ha, hiN, hb, failedTurns, failedTurn]
  | succ m ih =>
    intro i h hi
    have hlt : i < d.RetryOnTfFailure := by
      have : d.RetryOnTfFailure - i = (m : Int) + 1 := by simpa using hi
      omega
    have hle : i ≤ d.RetryOnTfFailure := by omega
    have hne : ¬ i = d.RetryOnTfFailure := by omega
    cases ha : env.terraformApply d.tmpDir d.TargetProvider h with
    | ok p =>
      left
      refine ⟨0, p, Nat.zero_le _, by simpa [failedTurns] using ha, ?_⟩
      rw [applyLoop]
      simp [hle, ha, failedTurns]
    | error e =>
      have hi1 : d.RetryOnTfFailure - (i + 1) = (m : Int) := by
        have : d.RetryOnTfFailure - i = (m : Int) + 1 := by simpa using hi
        omega
      have hstep : applyLoop env d i h = applyLoop env d (i + 1) (h ++ failedTurn d) := by
        conv_lhs => rw [applyLoop]
        simp [hle, ha, hne, failedTurn]
      rw [hstep]
      rcases ih (i + 1) (h ++ failedTurn d) hi1 with ⟨k, p, hk, hp, hres⟩ | ⟨e1, he1, hres⟩
      · left
        refine ⟨k + 1, p, Nat.succ_le_succ hk, ?_, ?_⟩
        · rw [← hp]; simp [failedTurns, List.append_assoc]
        · rw [hres]; simp [failedTurns, List.append_assoc]
      · right
        refine ⟨e1, ?_, ?_⟩
        · rw [← he1]; simp [failedTurns, List.append_assoc]
        · rw [hres]
          cases hb : d.BreakKubetestOnUpfail <;> simp [failedTurns, List.append_assoc]

theorem init_config (env : Env) (d : Deployer) (h : List Event) :
    (init env d h).1.RetryOnTfFailure = d.RetryOnTfFailure := by
  have hd : (initializeDeployer env d h).1.RetryOnTfFailure = d.RetryOnTfFailure := by
    unfold initializeDeployer
    split
    · rfl
    · split
      · rfl
      · dsimp only
        repeat' split
        all_goals rfl
  unfold init
  split
  · rfl
  · exact hd

theorem upPrologue_config (env : Env) (d : Deployer) (h : List Event) :
    (upPrologue env d h).1.RetryOnTfFailure = d.RetryOnTfFailure := by
  have hi := init_config env d h
  unfold upPrologue
  rcases hinit : init env d h with ⟨d1, err, h1⟩
  rw [hinit] at hi
  cases err with
  | some e => exact hi
  | none =>
    simp only
    repeat' split
    all_goals exact hi

/-- The shape of the attempts of the apply loop: `k` failed turns, then a last turn. -/
theorem applyLoop_shape (env : Env) (d : Deployer) (h : List Event)
    (hN : 0 ≤ d.RetryOnTfFailure) :
    ∃ (k : Nat) (last : Bool) (evs : List Event),
      (k : Int) ≤ d.RetryOnTfFailure
      ∧ (applyLoop env d 0 h).2 = h ++ evs
      ∧ applyResults evs = List.replicate k false ++ [last]
      ∧ (last = true ↔ (applyLoop env d 0 h).1 = none)
      ∧ (k = 0 → last = false → ∃ e, env.terraformApply d.tmpDir d.TargetProvider h = .error e)
      ∧ (last = false → (k : Int) = d.RetryOnTfFailure
          ∧ (d.BreakKubetestOnUpfail = false →
              evs = failedTurns d (d.RetryOnTfFailure + 1).toNat
              ∧ ∃ e, env.terraformApply d.tmpDir d.TargetProvider
                    (h ++ failedTurns d d.RetryOnTfFailure.toNat) = .error e
                ∧ (applyLoop env d 0 h).1
                    = some (.returned (some (.errorf ("terraform Apply failed. Error: " ++ e)))))) := by
  have hm : d.RetryOnTfFailure - 0 = (d.RetryOnTfFailure.toNat : Int) := by
    rw [Int.toNat_of_nonneg hN]; omega
  have hsucc : (d.RetryOnTfFailure + 1).toNat = d.RetryOnTfFailure.toNat + 1 := by omega
  rcases applyLoop_turns env d d.RetryOnTfFailure.toNat 0 h hm with
    ⟨k, p, hk, hp, hres⟩ | ⟨e, he, hres⟩
  · refine ⟨k, true, failedTurns d k ++ [.terraformApply d.tmpDir d.TargetProvider true,
      .terraformOutput d.tmpDir d.TargetProvider], by omega, ?_, ?_, ?_, ?_, ?_⟩
    · rw [hres]; simp [List.append_assoc]
    · simp [applyResults_append, applyResults_failedTurns, applyResults]
    · rw [hres]; simp
    · intro _ hl; cases hl
    · intro hl; cases hl
  · refine ⟨d.RetryOnTfFailure.toNat, false,
      failedTurns d (d.RetryOnTfFailure.toNat + 1)
        ++ (if d.BreakKubetestOnUpfail then [.exit 1] else []), by omega, ?_, ?_, ?_, ?_, ?_⟩
    · rw [hres]; cases d.BreakKubetestOnUpfail <;> simp
    · have hr : ∀ n : Nat, false :: List.replicate n false = List.replicate n false ++ [false] :=
        fun n => by rw [← List.replicate_succ, List.replicate_succ']
      cases d.BreakKubetestOnUpfail <;>
        simp [applyResults_append, applyResults_failedTurns, applyResults, List.replicate_succ, hr]
    · rw [hres]; cases d.BreakKubetestOnUpfail <;> simp
    · intro hk _
      refine ⟨e, ?_⟩
      rw [hk] at he
      simpa [failedTurns] using he
    · intro _
      refine ⟨by omega, ?_⟩
      intro hb
      rw [hres, hsucc]
      simp only [hb]
      exact ⟨by simp, e, he, by simp⟩

/-- The apply loop, told by the outcomes of `terraform.Apply`: when the turns before
turn `k` fail and turn `k` succeeds, within the retry bound, the loop is left after
turn `k`. -/
theorem applyLoop_first_success (env : Env) (d : Deployer) (p : String) :
    ∀ (k : Nat) (i : Int) (h : List Event), i + k ≤ d.RetryOnTfFailure →
      (∀ j, j < k → ∃ e, env.terraformApply d.tmpDir d.TargetProvider
          (h ++ failedTurns d j) = .error e) →
      env.terraformApply d.tmpDir d.TargetProvider (h ++ failedTurns d k) = .ok p →
      applyLoop env d i h
        = (none, h ++ failedTurns d k ++ [.terraformApply d.tmpDir d.TargetProvider true,
            .terraformOutput d.tmpDir d.TargetProvider]) := by
  intro k
  induction k with
  | zero =>
    intro i h hi _ hp
    have hle : i ≤ d.RetryOnTfFailure := by omega
    have hp0 : env.terraformApply d.tmpDir d.TargetProvider h = .ok p := by
      simpa [failedTurns] using hp
    rw [applyLoop]
    simp [hle, hp0, failedTurns]
  | succ k ih =>
    intro i h hi hfail hp
    have hle : i ≤ d.RetryOnTfFailure := by omega
    have hne : ¬ i = d.RetryOnTfFailure := by omega
    obtain ⟨e, he⟩ := hfail 0 (Nat.succ_pos k)
    have he0 : env.terraformApply d.tmpDir d.TargetProvider h = .error e := by
      simpa [failedTurns] using he
    have hstep : applyLoop env d i h = applyLoop env d (i + 1) (h ++ failedTurn d) := by
      conv_lhs => rw [applyLoop]
      simp [hle, he0, hne, failedTurn]
    rw [hstep, ih (i + 1) (h ++ failedTurn d) (by omega)]
    · simp [failedTurns, List.append_assoc]
    · intro j hj
      obtain ⟨e1, he1⟩ := hfail (j + 1) (Nat.succ_lt_succ hj)
      exact ⟨e1, by rw [← he1]; simp [failedTurns, List.append_assoc]⟩
    · rw [← hp]; simp [failedTurns, List.append_assoc]

/-- The apply loop, told by the outcomes of `terraform.Apply`: when every turn up to
the retry bound fails, the loop ends `Up`. -/
theorem applyLoop_all_fail (env : Env) (d : Deployer) (h : List Event)
    (hN : 0 ≤ d.RetryOnTfFailure)
    (hfail : ∀ j, j ≤ d.RetryOnTfFailure.toNat →
      ∃ e, env.terraformApply d.tmpDir d.TargetProvider (h ++ failedTurns d j) = .error e) :
    ∃ e, env.terraformApply d.tmpDir d.TargetProvider
          (h ++ failedTurns d d.RetryOnTfFailure.toNat) = .error e
      ∧ applyLoop env d 0 h
        = if d.BreakKubetestOnUpfail then
            (some (.exited 1), h ++ failedTurns d (d.RetryOnTfFailure.toNat + 1) ++ [.exit 1])
          else
            (some (.returned (some (.errorf ("terraform Apply failed. Error: " ++ e)))),
              h ++ failedTurns d (d.RetryOnTfFailure.toNat + 1)) := by
  have hm : d.RetryOnTfFailure - 0 = (d.RetryOnTfFailure.toNat : Int) := by
    rw [Int.toNat_of_nonneg hN]; omega
  rcases applyLoop_turns env d d.RetryOnTfFailure.toNat 0 h hm with
    ⟨k, p, hk, hp, _⟩ | ⟨e, he, hres⟩
  · obtain ⟨e, he⟩ := hfail k hk
    rw [hp] at he
    cases he
  · exact ⟨e, he, hres⟩

/-! ## Lemmas on histories and on the template -/

theorem IsUp_history (env : Env) (h : List Event) : (IsUp env h).2 = h ++ [.kubectlGetNodes] := by
  unfold IsUp
  repeat' split
  all_goals rfl

theorem upVerify_eq (env : Env) (h : List Event) :
    upVerify env h = (.returned none, h ++ [.kubectlGetNodes, .dumpClusterLogs]) := by
  simp [upVerify, IsUp_history]

theorem setKubeconfig_history (env : Env) (host : String) (h : List Event) :
    ∃ evs, (setKubeconfig env host h).2 = h ++ evs := by
  unfold setKubeconfig
  repeat' split
  all_goals first
    | exact ⟨[], (List.append_nil h).symm⟩
    | exact ⟨_, rfl⟩

theorem upConfigure_playbook (env : Env) (d : Deployer) (inv : AnsibleInventory)
    (h : List Event) (params : String) (base : GoMap String)
    (hmar : env.marshalCommonProvider (stringsJoin inv.Masters ",") h = .ok params)
    (hun : env.unmarshalVars params = .ok base) :
    ∃ evs, (upConfigure env d inv h).2
      = h ++ [.ansiblePlaybook d.tmpDir d.Playbook (mapsInsert base d.ExtraVars)] ++ evs := by
  unfold upConfigure
  simp only [hmar, hun]
  split
  · exact ⟨[], by simp⟩
  · split
    · split
      · exact ⟨[], by simp⟩
      · rename_i master0 rest hmasters
        obtain ⟨evs, hevs⟩ := setKubeconfig_history env master0
          (h ++ [.ansiblePlaybook d.tmpDir d.Playbook (mapsInsert base d.ExtraVars)])
        split
        · rename_i h1 heq
          rw [heq] at hevs
          simp only at hevs
          rw [upVerify_eq, hevs]
          exact ⟨evs ++ [.kubectlGetNodes, .dumpClusterLogs], by simp⟩
        · rename_i err h1 heq
          rw [heq] at hevs
          exact ⟨evs, hevs⟩
        · rename_i o h1 _ _ heq
          rw [heq] at hevs
          exact ⟨evs, hevs⟩
    · rw [upVerify_eq]
      exact ⟨[.kubectlGetNodes, .dumpClusterLogs], by simp⟩

theorem concat_lines (xs : List String) :
    concat (xs.map (fun x => concat ([TItem.dot, TItem.text "\n"].map (TItem.exec x))))
      = concat (xs.map (fun x => x ++ "\n")) := by
  induction xs with
  | nil => rfl
  | cons x rest ih =>
    simp only [List.map_cons, concat, ih, TItem.exec, List.map_nil]
    congr 1

theorem executeTemplate_inventory (inv : AnsibleInventory) :
    executeTemplate inv inventoryTemplate = .ok (inventoryText inv) := by
  simp only [executeTemplate, inventoryTemplate, TNode.exec, AnsibleInventory.field,
    if_true, concat_lines, inventoryText]
  simp [String.append_assoc]

theorem renderInventory_ok (env : Env) (d : Deployer) (inv : AnsibleInventory)
    (h : List Event) (hcreate : env.createHosts d.tmpDir h = none)
    (hwrite : env.writeHosts d.tmpDir (inventoryText inv) (h ++ [.createHosts d.tmpDir]) = none) :
    renderInventory env d inv h
      = (none, h ++ [.createHosts d.tmpDir, .writeHosts d.tmpDir (inventoryText inv)]) := by
  simp [renderInventory, hcreate, executeTemplate_inventory, hwrite]

theorem renderInventory_history (env : Env) (d : Deployer) (inv : AnsibleInventory)
    (h : List Event) :
    ∃ evs, (renderInventory env d inv h).2 = h ++ [.createHosts d.tmpDir] ++ evs := by
  unfold renderInventory
  rw [executeTemplate_inventory]
  cases env.createHosts d.tmpDir h with
  | some err => exact ⟨[], by simp⟩
  | none =>
    simp only
    cases env.writeHosts d.tmpDir (inventoryText inv) (h ++ [.createHosts d.tmpDir]) with
    | some err => exact ⟨[.writeHosts d.tmpDir (inventoryText inv)], by simp⟩
    | none => exact ⟨[.writeHosts d.tmpDir (inventoryText inv)], by simp⟩

theorem upAfterApply_ok (env : Env) (d : Deployer) (h : List Event) (raw : GoMap JVal)
    (inv : AnsibleInventory) (ips : List String)
    (hout : env.terraformOutput d.tmpDir d.TargetProvider h = .ok raw)
    (hnorm : normalize env.sprintV env.jsonTypeError d.TargetProvider raw d.machineIPs
      = (.ok inv, ips)) :
    upAfterApply env d h
      = match renderInventory env d inv (h ++ [.terraformOutput d.tmpDir d.TargetProvider]) with
        | (some err, h1) => ({ d with machineIPs := ips }, .returned (some err), h1)
        | (none, h1) =>
          ({ d with machineIPs := ips }, upConfigure env { d with machineIPs := ips } inv h1) := by
  unfold upAfterApply
  rw [hout]
  simp only
  rw [hnorm]

theorem upConfigure_history (env : Env) (d : Deployer) (inv : AnsibleInventory)
    (h : List Event) : ∃ evs, (upConfigure env d inv h).2 = h ++ evs := by
  cases hmar : env.marshalCommonProvider (stringsJoin inv.Masters ",") h with
  | error e => exact ⟨[], by simp [upConfigure, hmar]⟩
  | ok params =>
    cases hun : env.unmarshalVars params with
    | error e => exact ⟨[], by simp [upConfigure, hmar, hun]⟩
    | ok base =>
      obtain ⟨evs, hevs⟩ := upConfigure_playbook env d inv h params base hmar hun
      exact ⟨_, by rw [hevs, List.append_assoc]⟩

/-! ## Lemmas on `SplitHostPort` and `JoinHostPort` -/

theorem indexByte_eq_none (c : Char) : ∀ (s : List Char), c ∉ s → indexByte c s = none := by
  intro s
  induction s with
  | nil => intro _; rfl
  | cons x rest ih =>
    intro hc
    simp only [List.mem_cons, not_or] at hc
    have hx : ¬ x = c := fun e => hc.1 e.symm
    simp [indexByte, hx, ih hc.2]

theorem not_mem_of_indexByte_none (c : Char) : ∀ (s : List Char),
    indexByte c s = none → c ∉ s := by
  intro s
  induction s with
  | nil => intro _; simp
  | cons x rest ih =>
    intro hs
    by_cases hx : x = c
    · simp [indexByte, hx] at hs
    · simp only [indexByte, hx, if_false, Option.map_eq_none'] at hs
      simp only [List.mem_cons, not_or]
      exact ⟨fun e => hx e.symm, ih hs⟩

theorem indexByte_append_cons (c : Char) : ∀ (a b : List Char), c ∉ a →
    indexByte c (a ++ c :: b) = some a.length := by
  intro a
  induction a with
  | nil => intro b _; simp [indexByte]
  | cons x rest ih =>
    intro b hc
    simp only [List.mem_cons, not_or] at hc
    have hx : ¬ x = c := fun e => hc.1 e.symm
    simp [indexByte, hx, ih b hc.2]

theorem lastIndexByte_eq_none (c : Char) : ∀ (s : List Char), c ∉ s →
    lastIndexByte c s = none := by
  intro s
  induction s with
  | nil => intro _; rfl
  | cons x rest ih =>
    intro hc
    simp only [List.mem_cons, not_or] at hc
    have hx : ¬ x = c := fun e => hc.1 e.symm
    simp [lastIndexByte, hx, ih hc.2]

theorem lastIndexByte_append_cons (c : Char) : ∀ (a b : List Char), c ∉ b →
    lastIndexByte c (a ++ c :: b) = some a.length := by
  intro a
  induction a with
  | nil => intro b hb; simp [lastIndexByte, lastIndexByte_eq_none c b hb]
  | cons x rest ih =>
    intro b hb
    simp [lastIndexByte, ih b hb]

theorem lastIndexByte_drop (c : Char) : ∀ (s : List Char) (i : Nat),
    lastIndexByte c s = some i → c ∉ s.drop (i + 1) := by
  intro s
  induction s with
  | nil => intro i h; simp [lastIndexByte] at h
  | cons x rest ih =>
    intro i h
    cases hr : lastIndexByte c rest with
    | some j =>
      simp only [lastIndexByte, hr, Option.some.injEq] at h
      subst h
      simpa using ih j hr
    | none =>
      by_cases hx : x = c
      · simp only [lastIndexByte, hr, hx, if_true, Option.some.injEq] at h
        subst h
        intro hmem
        have hmem1 : c ∈ rest := by simpa using hmem
        have hnone : ∀ (l : List Char), lastIndexByte c l = none → c ∉ l := by
          intro l
          induction l with
          | nil => intro _; simp
          | cons y t iht =>
            intro hl
            cases ht : lastIndexByte c t with
            | some j => simp [lastIndexByte, ht] at hl
            | none =>
              by_cases hy : y = c
              · simp [lastIndexByte, ht, hy] at hl
              · simp only [List.mem_cons, not_or]
                exact ⟨fun e => hy e.symm, iht ht⟩
        exact hnone rest hr hmem1
      · simp [lastIndexByte, hr, hx] at h

theorem splitTail_ok (s host : List Char) (i j k : Nat) (r : String × String)
    (h : splitTail s host i j k = .ok r) :
    '[' ∉ s.drop j ∧ ']' ∉ s.drop k ∧ r = (⟨host⟩, ⟨s.drop (i + 1)⟩) := by
  unfold splitTail at h
  cases h1 : indexByte '[' (s.drop j) with
  | some a => simp [h1] at h
  | none =>
    cases h2 : indexByte ']' (s.drop k) with
    | some a => simp [h1, h2] at h
    | none =>
      simp only [h1, h2, Option.isSome_none, Bool.false_eq_true, if_false, Except.ok.injEq] at h
      exact ⟨not_mem_of_indexByte_none _ _ h1, not_mem_of_indexByte_none _ _ h2, h.symm⟩

theorem not_mem_drop_of_le (c : Char) (s : List Char) (j n : Nat) (hle : j ≤ n)
    (h : c ∉ s.drop j) : c ∉ s.drop n := by
  intro hmem
  apply h
  have : s.drop n = (s.drop j).drop (n - j) := by
    rw [List.drop_drop]
    congr 1
    omega
  rw [this] at hmem
  exact List.mem_of_mem_drop hmem

/-- The port that `SplitHostPort` returns has no colon and no bracket. -/
theorem SplitHostPort_port (hostport : String) (r : String × String)
    (h : SplitHostPort hostport = .ok r) :
    ':' ∉ r.2.data ∧ '[' ∉ r.2.data ∧ ']' ∉ r.2.data := by
  unfold SplitHostPort at h
  cases hi : lastIndexByte ':' hostport.data with
  | none => simp [hi] at h
  | some i =>
    have hcolon := lastIndexByte_drop ':' hostport.data i hi
    simp only [hi] at h
    by_cases hb : hostport.data.head? = some '['
    · simp only [hb, if_true] at h
      cases he : indexByte ']' hostport.data with
      | none => simp [he] at h
      | some e =>
        simp only [he] at h
        by_cases h1 : e + 1 = hostport.data.length
        · simp [h1] at h
        · by_cases h2 : e + 1 = i
          · subst h2
            simp only [h1, if_true, if_false] at h
            obtain ⟨ho, hc, hr⟩ := splitTail_ok _ _ _ _ _ _ h
            subst hr
            exact ⟨hcolon, not_mem_drop_of_le _ _ 1 (e + 1 + 1) (by omega) ho,
              not_mem_drop_of_le _ _ (e + 1) (e + 1 + 1) (by omega) hc⟩
          · simp only [h1, h2, if_false] at h
            split at h <;> cases h
    · simp only [hb, if_false] at h
      split at h
      · cases h
      · obtain ⟨ho, hc, hr⟩ := splitTail_ok _ _ _ _ _ _ h
        subst hr
        exact ⟨hcolon, not_mem_drop_of_le _ _ 0 (i + 1) (by omega) ho,
          not_mem_drop_of_le _ _ 0 (i + 1) (by omega) hc⟩

/-- Splitting what `JoinHostPort` joined gives the host and the port back, for a host
without brackets and a port without colon and brackets. -/
theorem SplitHostPort_JoinHostPort (host port : String)
    (hopen : '[' ∉ host.data) (hclose : ']' ∉ host.data)
    (hp1 : ':' ∉ port.data) (hp2 : '[' ∉ port.data) (hp3 : ']' ∉ port.data) :
    SplitHostPort (JoinHostPort host port) = .ok (host, port) := by
  by_cases hc : ':' ∈ host.data
  · have hidx : (indexByte ':' host.data).isSome = true := by
      cases hx : indexByte ':' host.data with
      | none => exact absurd hc (not_mem_of_indexByte_none _ _ hx)
      | some a => rfl
    have hdata : (JoinHostPort host port).data
        = ('[' :: host.data) ++ ']' :: ([':'] ++ port.data) := by
      simp [JoinHostPort, hidx]
    have hdata2 : (JoinHostPort host port).data
        = ('[' :: host.data ++ [']']) ++ ':' :: port.data := by
      simp [hdata]
    have hlast : lastIndexByte ':' (JoinHostPort host port).data = some (host.data.length + 2) := by
      rw [hdata2, lastIndexByte_append_cons ':' _ _ hp1]
      simp
    have hfirst : indexByte ']' (JoinHostPort host port).data = some (host.data.length + 1) := by
      rw [hdata, indexByte_append_cons ']' ('[' :: host.data) _ (by simp [hclose])]
      simp
    have hhead : (JoinHostPort host port).data.head? = some '[' := by
      rw [hdata]; rfl
    have hlen : (JoinHostPort host port).data.length = host.data.length + 3 + port.data.length := by
      rw [hdata]; simp; omega
    have htake : ((JoinHostPort host port).data.take (host.data.length + 1)).drop 1 = host.data := by
      rw [hdata, List.take_left' (by simp)]
      rfl
    have hdrop1 : (JoinHostPort host port).data.drop 1 = host.data ++ ']' :: ':' :: port.data := by
      rw [hdata]; simp
    have hdrop2 : (JoinHostPort host port).data.drop (host.data.length + 1 + 1)
        = ':' :: port.data := by
      rw [hdata2, List.drop_left' (by simp)]
    have hdrop3 : (JoinHostPort host port).data.drop (host.data.length + 2 + 1) = port.data := by
      have : (JoinHostPort host port).data
          = ('[' :: host.data ++ [']', ':']) ++ port.data := by simp [hdata]
      rw [this, List.drop_left' (by simp)]
    have ho : indexByte '[' ((JoinHostPort host port).data.drop 1) = none := by
      rw [hdrop1]
      apply indexByte_eq_none
      simp [hopen, hp2]
    have hcl : indexByte ']' ((JoinHostPort host port).data.drop (host.data.length + 1 + 1))
        = none := by
      rw [hdrop2]
      apply indexByte_eq_none
      simp [hp3]
    unfold SplitHostPort
    simp only [hlast, hhead, if_true, hfirst]
    have hne : ¬ host.data.length + 1 + 1 = (JoinHostPort host port).data.length := by
      rw [hlen]; omega
    simp only [hne, if_false, if_true, splitTail, ho, hcl, Option.isSome_none,
      Bool.false_eq_true, htake, hdrop3]
  · have hidx : (indexByte ':' host.data).isSome = false := by
      rw [indexByte_eq_none _ _ hc]; rfl
    have hdata : (JoinHostPort host port).data = host.data ++ ':' :: port.data := by
      simp [JoinHostPort, hidx]
    have hlast : lastIndexByte ':' (JoinHostPort host port).data = some host.data.length := by
      rw [hdata, lastIndexByte_append_cons ':' _ _ hp1]
    have hhead : ¬ (JoinHostPort host port).data.head? = some '[' := by
      rw [hdata]
      cases hh : host.data with
      | nil => simp
      | cons x rest =>
        rw [hh] at hopen
        simp only [List.mem_cons, not_or] at hopen
        simp only [List.cons_append, List.head?_cons, Option.some.injEq]
        exact fun e => hopen.1 e.symm
    have htake : (JoinHostPort host port).data.take host.data.length = host.data := by
      rw [hdata, List.take_left]
    have hdrop : (JoinHostPort host port).data.drop (host.data.length + 1) = port.data := by
      have : (JoinHostPort host port).data = (host.data ++ [':']) ++ port.data := by simp [hdata]
      rw [this, List.drop_left' (by simp)]
    have ho : indexByte '[' ((JoinHostPort host port).data.drop 0) = none := by
      rw [List.drop_zero, hdata]
      apply indexByte_eq_none
      simp [hopen, hp2]
    have hcl : indexByte ']' ((JoinHostPort host port).data.drop 0) = none := by
      rw [List.drop_zero, hdata]
      apply indexByte_eq_none
      simp [hclose, hp3]
    unfold SplitHostPort
    simp only [hlast, hhead, if_false, htake, hidx, Bool.false_eq_true, splitTail, ho, hcl,
      Option.isSome_none, hdrop]

theorem rewriteClusters_ok (env : Env) (host : String) : ∀ (clusters : GoMap Cluster),
    (∀ nc ∈ clusters, ∃ u hp, env.urlParse nc.2.Server = some u
      ∧ SplitHostPort u.Host = .ok hp) →
    ∃ out, rewriteClusters env host clusters = .ok out
      ∧ List.Forall₂ (fun old new => new.1 = old.1
          ∧ ∃ u oldHost port, env.urlParse old.2.Server = some u
            ∧ SplitHostPort u.Host = .ok (oldHost, port)
            ∧ new.2.Server = env.urlString { u with Host := JoinHostPort host port }
            ∧ ('[' ∉ host.data → ']' ∉ host.data →
                SplitHostPort (JoinHostPort host port) = .ok (host, port)))
          clusters out := by
  intro clusters
  induction clusters with
  | nil => intro _; exact ⟨[], rfl, List.Forall₂.nil⟩
  | cons nc rest ih =>
    intro hall
    obtain ⟨name, c⟩ := nc
    obtain ⟨u, hp, hu, hsplit⟩ := hall (name, c) (List.mem_cons_self _ _)
    obtain ⟨oldHost, port⟩ := hp
    obtain ⟨out, hout, hrel⟩ := ih (fun nc hnc => hall nc (List.mem_cons_of_mem _ hnc))
    simp only at hu
    refine ⟨(name, { c with
      Server := env.urlString { u with Host := JoinHostPort host port } }) :: out, ?_, ?_⟩
    · simp [rewriteClusters, hu, hsplit, hout]
    · refine List.Forall₂.cons ⟨rfl, u, oldHost, port, hu, hsplit, rfl, ?_⟩ hrel
      intro hopen hclose
      obtain ⟨h1, h2, h3⟩ := SplitHostPort_port u.Host (oldHost, port) hsplit
      exact SplitHostPort_JoinHostPort host port hopen hclose h1 h2 h3

theorem rewriteClusters_split_error (env : Env) (host : String) :
    ∀ (clusters : GoMap Cluster),
      (∀ nc ∈ clusters, ∃ u, env.urlParse nc.2.Server = some u) →
      (∃ nc ∈ clusters, ∃ u e, env.urlParse nc.2.Server = some u
        ∧ SplitHostPort u.Host = .error e) →
      rewriteClusters env host clusters = .error (.errorf "errored while SplitHostPort") := by
  intro clusters
  induction clusters with
  | nil =>
    intro _ hbad
    obtain ⟨nc, hnc, _⟩ := hbad
    cases hnc
  | cons nc0 rest ih =>
    intro hparse hbad
    obtain ⟨name, c⟩ := nc0
    obtain ⟨u0, hu0⟩ := hparse (name, c) (List.mem_cons_self _ _)
    simp only at hu0
    cases hs : SplitHostPort u0.Host with
    | error e => simp [rewriteClusters, hu0, hs]
    | ok hp =>
      obtain ⟨nc, hnc, u, e, hu, he⟩ := hbad
      have hrest : ∃ nc ∈ rest, ∃ u e, env.urlParse nc.2.Server = some u
          ∧ SplitHostPort u.Host = .error e := by
        rcases List.mem_cons.mp hnc with heq | hmem
        · subst heq
          simp only at hu
          rw [hu0] at hu
          cases hu
          rw [hs] at he
          cases he
        · exact ⟨nc, hmem, u, e, hu, he⟩
      have hr := ih (fun nc hnc => hparse nc (List.mem_cons_of_mem _ hnc)) hrest
      simp [rewriteClusters, hu0, hs, hr]

theorem SplitHostPort_no_colon (s : String) (hs : ':' ∉ s.data) :
    SplitHostPort s = .error .missingPort := by
  unfold SplitHostPort
  rw [lastIndexByte_eq_none ':' s.data hs]


/-! ## The claims -/

/-- C1: for every retry bound `N ≥ 0` (`RetryOnTfFailure`) and every environment (so every
sequence of outcomes of `terraform.Apply`, the outcome of attempt `j` being the answer
of the environment after `j` failed turns).
First: when the attempts before attempt `k ≤ N` fail and attempt `k` succeeds, the loop
makes exactly these `k + 1` attempts, is left there, and `Up` goes on with the phases
after the loop; so a first attempt that succeeds is the only one.
Second: when all the `N + 1` attempts fail and `BreakKubetestOnUpfail` is unset, the
loop makes exactly `N + 1` attempts and `Up` returns the error
`terraform Apply failed. Error: e` of the last attempt, with the history of `N + 1`
failed turns: no later phase runs.
Further, whatever the outcomes: the loop only appends events; it calls `terraform.Apply`
at least once and at most `N + 1` times; every attempt before the last one failed; the
last attempt succeeded exactly when the loop is left for the later phases; a failed last
attempt is attempt number `N + 1`; and whenever the loop ends `Up`, `Up` returns that
outcome with the history the loop left. -/
theorem applyLoop_attempts (env : Env) (d : Deployer) (h : List Event)
    (hN : 0 ≤ d.RetryOnTfFailure) :
    (∀ (k : Nat) (p : String), (k : Int) ≤ d.RetryOnTfFailure →
        (∀ j, j < k → ∃ e, env.terraformApply d.tmpDir d.TargetProvider
            (h ++ failedTurns d j) = .error e) →
        env.terraformApply d.tmpDir d.TargetProvider (h ++ failedTurns d k) = .ok p →
        applyLoop env d 0 h
            = (none, h ++ failedTurns d k ++ [.terraformApply d.tmpDir d.TargetProvider true,
                .terraformOutput d.tmpDir d.TargetProvider])
        ∧ applyResults (loopEvents env d h) = List.replicate k false ++ [true]
        ∧ (applyResults (loopEvents env d h)).length = k + 1
        ∧ ∀ d0 h0, upPrologue env d0 h0 = (d, none, h) →
            Up env d0 h0
              = upAfterApply env d (h ++ failedTurns d k
                  ++ [.terraformApply d.tmpDir d.TargetProvider true,
                      .terraformOutput d.tmpDir d.TargetProvider]))
    ∧ ((∀ j, j ≤ d.RetryOnTfFailure.toNat →
          ∃ e, env.terraformApply d.tmpDir d.TargetProvider (h ++ failedTurns d j) = .error e) →
        d.BreakKubetestOnUpfail = false →
        ∃ e, env.terraformApply d.tmpDir d.TargetProvider
              (h ++ failedTurns d d.RetryOnTfFailure.toNat) = .error e
          ∧ applyLoop env d 0 h
              = (some (.returned (some (.errorf ("terraform Apply failed. Error: " ++ e)))),
                  h ++ failedTurns d (d.RetryOnTfFailure.toNat + 1))
          ∧ applyResults (loopEvents env d h)
              = List.replicate (d.RetryOnTfFailure.toNat + 1) false
          ∧ ((applyResults (loopEvents env d h)).length : Int) = d.RetryOnTfFailure + 1
          ∧ ∀ d0 h0, upPrologue env d0 h0 = (d, none, h) →
              Up env d0 h0
                = (d, .returned (some (.errorf ("terraform Apply failed. Error: " ++ e))),
                    h ++ failedTurns d (d.RetryOnTfFailure.toNat + 1)))
    ∧ (applyLoop env d 0 h).2 = h ++ loopEvents env d h
    ∧ 1 ≤ (applyResults (loopEvents env d h)).length
    ∧ ((applyResults (loopEvents env d h)).length : Int) ≤ d.RetryOnTfFailure + 1
    ∧ (applyResults (loopEvents env d h)).dropLast
        = List.replicate ((applyResults (loopEvents env d h)).length - 1) false
    ∧ ((applyResults (loopEvents env d h)).getLast? = some true
        ↔ (applyLoop env d 0 h).1 = none)
    ∧ ((applyResults (loopEvents env d h)).getLast? = some false →
        ((applyResults (loopEvents env d h)).length : Int) = d.RetryOnTfFailure + 1)
    ∧ (∀ p, env.terraformApply d.tmpDir d.TargetProvider h = .ok p →
        applyResults (loopEvents env d h) = [true])
    ∧ ((applyResults (loopEvents env d h)).getLast? = some false →
        d.BreakKubetestOnUpfail = false →
        loopEvents env d h = failedTurns d (d.RetryOnTfFailure + 1).toNat
        ∧ ∃ e, env.terraformApply d.tmpDir d.TargetProvider
              (h ++ failedTurns d d.RetryOnTfFailure.toNat) = .error e
            ∧ (applyLoop env d 0 h).1
                = some (.returned (some (.errorf ("terraform Apply failed. Error: " ++ e)))))
    ∧ (∀ d0 h0 o, upPrologue env d0 h0 = (d, none, h) → (applyLoop env d 0 h).1 = some o →
        d.RetryOnTfFailure = d0.RetryOnTfFailure
        ∧ Up env d0 h0 = (d, o, h ++ loopEvents env d h)) := by
  refine ⟨?_, ?_, ?_⟩
  · intro k p hk hfail hp
    have hres := applyLoop_first_success env d p k 0 h (by omega) hfail hp
    have hev : loopEvents env d h
        = failedTurns d k ++ [.terraformApply d.tmpDir d.TargetProvider true,
            .terraformOutput d.tmpDir d.TargetProvider] := by
      simp [loopEvents, hres, List.append_assoc]
    refine ⟨hres, ?_, ?_, ?_⟩
    · rw [hev]
      simp [applyResults_append, applyResults_failedTurns, applyResults]
    · rw [hev]
      simp [applyResults_append, applyResults_failedTurns, applyResults]
    · intro d0 h0 hpro
      unfold Up
      rw [hpro]
      simp only
      rw [hres]
  · intro hfail hb
    obtain ⟨e, he, hres⟩ := applyLoop_all_fail env d h hN hfail
    simp only [hb, Bool.false_eq_true, if_false] at hres
    have hev : loopEvents env d h = failedTurns d (d.RetryOnTfFailure.toNat + 1) := by
      simp [loopEvents, hres]
    refine ⟨e, he, hres, ?_, ?_, ?_⟩
    · rw [hev, applyResults_failedTurns]
    · rw [hev, applyResults_failedTurns]
      simp only [List.length_replicate]
      push_cast
      rw [Int.toNat_of_nonneg hN]
    · intro d0 h0 hpro
      unfold Up
      rw [hpro]
      simp only
      rw [hres]
  obtain ⟨k, last, evs, hk, hevs, hres, hlast, hfirst, hfail⟩ := applyLoop_shape env d h hN
  have hloop : loopEvents env d h = evs := by
    simp [loopEvents, hevs]
  rw [hloop, hres]
  have hlen : (List.replicate k false ++ [last]).length = k + 1 := by simp
  have hget : (List.replicate k false ++ [last]).getLast? = some last := by simp
  refine ⟨hevs, by omega, by rw [hlen]; push_cast; omega, ?_, ?_, ?_, ?_, ?_, ?_⟩
  · rw [hlen, List.dropLast_concat]; rfl
  · rw [hget, ← hlast]; simp
  · intro hl
    rw [hget] at hl
    have hl1 : last = false := by simpa using hl
    rw [hlen]; push_cast
    have := (hfail hl1).1
    omega
  · intro p hp
    cases k with
    | zero =>
      cases last with
      | true => rfl
      | false =>
        obtain ⟨e, he⟩ := hfirst rfl rfl
        rw [hp] at he
        cases he
    | succ k =>
      exfalso
      have hone : applyLoop env d 0 h
          = (none, h ++ [.terraformApply d.tmpDir d.TargetProvider true,
              .terraformOutput d.tmpDir d.TargetProvider]) := by
        rw [applyLoop]
        simp [hN, hp]
      rw [hone] at hevs
      have hev : evs = [.terraformApply d.tmpDir d.TargetProvider true,
          .terraformOutput d.tmpDir d.TargetProvider] := by
        simpa using hevs.symm
      rw [hev] at hres
      simp [applyResults, List.replicate_succ] at hres
  · intro hl hb
    rw [hget] at hl
    have hl1 : last = false := by simpa using hl
    exact (hfail hl1).2 hb
  · intro d0 h0 o hpro ho
    refine ⟨?_, ?_⟩
    · have := upPrologue_config env d0 h0
      rw [hpro] at this
      exact this
    · unfold Up
      rw [hpro]
      simp only
      rw [← hevs]
      rcases hl : applyLoop env d 0 h with ⟨o1, h2⟩
      rw [hl] at ho
      simp only at ho
      subst ho
      rfl

/-- C1, at a concrete input: retry bound 0 and an apply that always fails. There is
one attempt, and `Up` returns the apply failure. -/
theorem applyLoop_attempts_witness :
    0 ≤ dNoRetry.RetryOnTfFailure
    ∧ (∀ j, j ≤ dNoRetry.RetryOnTfFailure.toNat →
        ∃ e, envApplyFails.terraformApply dNoRetry.tmpDir dNoRetry.TargetProvider
          ([] ++ failedTurns dNoRetry j) = .error e)
    ∧ dNoRetry.BreakKubetestOnUpfail = false
    ∧ ∃ e, envApplyFails.terraformApply dNoRetry.tmpDir dNoRetry.TargetProvider
            ([] ++ failedTurns dNoRetry dNoRetry.RetryOnTfFailure.toNat) = .error e
        ∧ applyLoop envApplyFails dNoRetry 0 []
            = (some (.returned (some (.errorf ("terraform Apply failed. Error: " ++ e)))),
                [] ++ failedTurns dNoRetry (dNoRetry.RetryOnTfFailure.toNat + 1))
        ∧ applyResults (loopEvents envApplyFails dNoRetry [])
            = List.replicate (dNoRetry.RetryOnTfFailure.toNat + 1) false
        ∧ ((applyResults (loopEvents envApplyFails dNoRetry [])).length : Int)
            = dNoRetry.RetryOnTfFailure + 1
        ∧ ∀ d0 h0, upPrologue envApplyFails d0 h0 = (dNoRetry, none, []) →
            Up envApplyFails d0 h0
              = (dNoRetry,
                  .returned (some (.errorf ("terraform Apply failed. Error: " ++ e))),
                  [] ++ failedTurns dNoRetry (dNoRetry.RetryOnTfFailure.toNat + 1)) :=
  ⟨by decide, fun _ _ => ⟨"quota exceeded", rfl⟩, rfl,
    (applyLoop_attempts envApplyFails dNoRetry [] (by decide)).2.1
      (fun _ _ => ⟨"quota exceeded", rfl⟩) rfl⟩

/-- With retry bound 0 and an apply that always fails, `Up` makes one attempt and returns
the apply failure; the history ends with the output printed in the loop. -/
theorem Up_no_retry_apply_fails :
    (Up envApplyFails dNoRetry []).2
      = (.returned (some (.errorf "terraform Apply failed. Error: quota exceeded")),
         [.commonInitialize, .mkdir "k8s-cluster", .dumpCommonConfig "k8s-cluster",
          .dumpProviderConfig .powervs "k8s-cluster",
          .terraformApply "k8s-cluster" "powervs" false,
          .terraformOutput "k8s-cluster" "powervs"]) := by
  simp [Up, upPrologue, init, initializeDeployer, checkDependencies, dependencies,
    envApplyFails, envOk, dNoRetry, New, applyLoop]

/-- With the retry bound 1 of `New`, a first apply that fails and a second that succeeds,
the loop makes two attempts and `Up` goes on. -/
theorem applyLoop_retry_then_success :
    applyLoop envApplyFailsOnce dReady 0 []
      = (none,
         [.terraformApply "k8s-cluster" "powervs" false,
          .terraformOutput "k8s-cluster" "powervs",
          .terraformApply "k8s-cluster" "powervs" true,
          .terraformOutput "k8s-cluster" "powervs"]) := by
  rw [applyLoop]
  have h0 : envApplyFailsOnce.terraformApply dReady.tmpDir dReady.TargetProvider []
      = .error "timeout" := rfl
  have hN : dReady.RetryOnTfFailure = 1 := rfl
  simp only [h0, hN]
  rw [applyLoop]
  rfl

/-- C2 (as stated) fails: under powervs, with masters and workers both lists of strings,
a further output that is a bare string makes the normalization return an error. -/
theorem normalize_powervs_extra_scalar :
    (GoMap.keys rawExtraScalar).Nodup
    ∧ (GoMap.find rawExtraScalar "masters").bind powervsAddresses = some ["10.0.0.1"]
    ∧ (GoMap.find rawExtraScalar "workers").bind powervsAddresses = some ["10.0.0.2"]
    ∧ normalize envOk.sprintV envOk.jsonTypeError "powervs" rawExtraScalar []
        = (.error (.returned (some (.errorf
            "error while unmarshaling data json: cannot unmarshal value into Go value"))), []) :=
  ⟨by decide, by decide, by decide, by rfl⟩

/-- C2 (amended): for every provider variant and every raw output with distinct keys in
which, under vpc, each of masters and workers is a string or a list of strings, and, under
any other provider (powervs), each of them is a list of strings and every value of the
output is list-shaped, the normalization yields the inventory whose Masters and Workers
are the input lists in the same order (a bare string giving a one-element list), and
appends the addresses to `d.machineIPs`. -/
theorem normalize_wellformed (sprintV typeErr : JVal → String) (tp : String)
    (raw : GoMap JVal) (mv wv : JVal) (ms ws ips : List String)
    (hkeys : (GoMap.keys raw).Nodup)
    (hm : GoMap.find raw "masters" = some mv) (hw : GoMap.find raw "workers" = some wv)
    (hshape : if tp = "vpc" then vpcAddresses mv = some ms ∧ vpcAddresses wv = some ws
      else powervsAddresses mv = some ms ∧ powervsAddresses wv = some ws
        ∧ ∀ kv ∈ raw, (unmarshalSlice kv.2).isSome = true) :
    normalize sprintV typeErr tp raw ips
      = (.ok { Masters := ms, Workers := ws }, ips ++ ms ++ ws) :=
  normalize_ok sprintV typeErr tp raw mv wv ms ws ips hkeys hm hw hshape

/-- C2, at the scenario of the specification (vpc) and at an output of lists (powervs). -/
theorem normalize_wellformed_witness :
    normalize envOk.sprintV envOk.jsonTypeError "vpc" rawScenario []
        = (.ok { Masters := ["10.0.0.1"], Workers := ["10.0.0.2", "10.0.0.3"] },
            [] ++ ["10.0.0.1"] ++ ["10.0.0.2", "10.0.0.3"])
    ∧ normalize envOk.sprintV envOk.jsonTypeError "powervs" rawLists []
        = (.ok { Masters := ["10.0.0.1"], Workers := ["10.0.0.2"] },
            [] ++ ["10.0.0.1"] ++ ["10.0.0.2"]) :=
  ⟨normalize_wellformed envOk.sprintV envOk.jsonTypeError "vpc" rawScenario
      (.str "10.0.0.1") (.arr [.str "10.0.0.2", .str "10.0.0.3"])
      ["10.0.0.1"] ["10.0.0.2", "10.0.0.3"] [] (by decide) rfl rfl (by decide),
   normalize_wellformed envOk.sprintV envOk.jsonTypeError "powervs" rawLists
      (.arr [.str "10.0.0.1"]) (.arr [.str "10.0.0.2"])
      ["10.0.0.1"] ["10.0.0.2"] [] (by decide) rfl rfl
      (by
        refine ⟨rfl, rfl, ?_⟩
        intro kv hkv
        simp only [rawLists, List.mem_cons, List.mem_singleton, List.not_mem_nil, or_false] at hkv
        rcases hkv with h | h | h <;> subst h <;> rfl)⟩

/-- C3 (as stated) fails: under vpc, for an output with masters and without workers, the
error that the normalization returns has a fixed message, in which the key `workers`
does not occur. -/
theorem normalize_missing_workers_message :
    GoMap.find rawNoWorkers "workers" = none
    ∧ (normalize envOk.sprintV envOk.jsonTypeError "vpc" rawNoWorkers []).1
        = .error (.returned (some (.errorf
            "error while unmarshaling machine IPs from terraform output")))
    ∧ (GoError.errorf "error while unmarshaling machine IPs from terraform output").mentions
        "workers" = false :=
  ⟨rfl, by rfl, by decide⟩

/-- C3 (amended): for every provider variant and every raw output that has no `workers`
key, the normalization yields no inventory; when the masters value is well-formed or
the masters key is absent too (and, under powervs, every value of the output is
list-shaped) it returns the error with the fixed message
`error while unmarshaling machine IPs from terraform output`, after the masters were
appended to `d.machineIPs`; and this message does not name the key `workers`. -/
theorem normalize_missing_workers (sprintV typeErr : JVal → String) (tp : String)
    (raw : GoMap JVal) (ips : List String) (hw : GoMap.find raw "workers" = none) :
    (∀ inv, (normalize sprintV typeErr tp raw ips).1 ≠ .ok inv)
    ∧ (∀ mv ms, GoMap.find raw "masters" = some mv →
        (if tp = "vpc" then vpcAddresses mv = some ms
          else powervsAddresses mv = some ms
            ∧ ∀ kv ∈ raw, (unmarshalSlice kv.2).isSome = true) →
        (GoMap.keys raw).Nodup →
        normalize sprintV typeErr tp raw ips
          = (.error (.returned (some (.errorf
              "error while unmarshaling machine IPs from terraform output"))), ips ++ ms))
    ∧ (GoMap.find raw "masters" = none →
        (if tp = "vpc" then True else ∀ kv ∈ raw, (unmarshalSlice kv.2).isSome = true) →
        normalize sprintV typeErr tp raw ips
          = (.error (.returned (some (.errorf
              "error while unmarshaling machine IPs from terraform output"))), ips))
    ∧ (GoError.errorf "error while unmarshaling machine IPs from terraform output").mentions
        "workers" = false := by
  refine ⟨normalize_no_workers_not_ok sprintV typeErr tp raw ips hw, ?_, ?_, by decide⟩
  swap
  · intro hm hshape
    by_cases htp : tp = "vpc"
    · have h1 : GoMap.find (normalizeVpc sprintV raw) "masters" = none := by
        simp only [normalizeVpc]
        rw [GoMap.find_foldl_set_absent (coerceVpc sprintV) raw [] "masters" hm]
        rfl
      simp [normalize, htp, collectMachines, toLower_masters, h1]
    · simp only [htp, if_false] at hshape
      have h1 : GoMap.find (raw.foldl
          (fun m kv => GoMap.set m kv.1 ((unmarshalSlice kv.2).getD [])) [])
          "masters" = none := by
        rw [GoMap.find_foldl_set_absent (fun v => (unmarshalSlice v).getD []) raw []
          "masters" hm]
        rfl
      simp [normalize, htp, unmarshalListMap_ok typeErr raw [] hshape, collectMachines,
        toLower_masters, h1]
  intro mv ms hm hshape hkeys
  by_cases htp : tp = "vpc"
  · simp only [htp, if_true] at hshape
    have hc : coerceVpc sprintV mv = ms.map JVal.str := by
      cases mv with
      | str s => simp [vpcAddresses] at hshape; subst hshape; rfl
      | arr xs => exact stringsOf_eq_some xs ms hshape
      | null => simp [vpcAddresses] at hshape
      | bool b => simp [vpcAddresses] at hshape
      | num l => simp [vpcAddresses] at hshape
      | obj l => simp [vpcAddresses] at hshape
    have h1 : GoMap.find (normalizeVpc sprintV raw) "masters" = some (ms.map JVal.str) := by
      simp only [normalizeVpc]
      rw [GoMap.find_foldl_set (coerceVpc sprintV) raw [] "masters" hkeys, hm]
      simp [hc]
    have h2 : GoMap.find (normalizeVpc sprintV raw) "workers" = none := by
      simp only [normalizeVpc]
      rw [GoMap.find_foldl_set_absent (coerceVpc sprintV) raw [] "workers" hw]
      rfl
    simp [normalize, htp, collectMachines, toLower_masters, toLower_workers, h1, h2,
      addMachines_masters]
  · simp only [htp, if_false] at hshape
    obtain ⟨hs, hall⟩ := hshape
    have hc : (unmarshalSlice mv).getD [] = ms.map JVal.str := by
      cases mv with
      | arr xs => exact stringsOf_eq_some xs ms hs
      | str s => simp [powervsAddresses] at hs
      | null => simp [powervsAddresses] at hs
      | bool b => simp [powervsAddresses] at hs
      | num l => simp [powervsAddresses] at hs
      | obj l => simp [powervsAddresses] at hs
    have h1 : GoMap.find (raw.foldl
        (fun m kv => GoMap.set m kv.1 ((unmarshalSlice kv.2).getD [])) [])
        "masters" = some (ms.map JVal.str) := by
      rw [GoMap.find_foldl_set (fun v => (unmarshalSlice v).getD []) raw [] "masters" hkeys, hm]
      simp [hc]
    have h2 : GoMap.find (raw.foldl
        (fun m kv => GoMap.set m kv.1 ((unmarshalSlice kv.2).getD [])) [])
        "workers" = none := by
      rw [GoMap.find_foldl_set_absent (fun v => (unmarshalSlice v).getD []) raw [] "workers" hw]
      rfl
    simp [normalize, htp, unmarshalListMap_ok typeErr raw [] hall, collectMachines,
      toLower_masters, toLower_workers, h1, h2, addMachines_masters]

/-- C3, at a concrete input: vpc and an output with masters only. -/
theorem normalize_missing_workers_witness :
    GoMap.find rawNoWorkers "workers" = none
    ∧ ∀ inv, (normalize envOk.sprintV envOk.jsonTypeError "vpc" rawNoWorkers []).1 ≠ .ok inv :=
  ⟨rfl,
    (normalize_missing_workers envOk.sprintV envOk.jsonTypeError "vpc" rawNoWorkers [] rfl).1⟩

/-- C4 (as stated) fails: with one master and an empty list of workers, `Up` returns no
error at the normalization or later: the inventory file is written with an empty workers
section, the playbook is run, the client configuration is rewritten for the first
master, and `Up` returns nil. -/
theorem Up_empty_workers_succeeds :
    (GoMap.find rawEmptyWorkers "workers").bind powervsAddresses = some []
    ∧ envEmptyWorkers.terraformOutput "k8s-cluster" "powervs" [] = .ok rawEmptyWorkers
    ∧ (Up envEmptyWorkers New []).2
        = (.returned none,
           [.commonInitialize, .mkdir "k8s-cluster", .dumpCommonConfig "k8s-cluster",
            .dumpProviderConfig .powervs "k8s-cluster",
            .terraformApply "k8s-cluster" "powervs" true,
            .terraformOutput "k8s-cluster" "powervs",
            .terraformOutput "k8s-cluster" "powervs",
            .createHosts "k8s-cluster",
            .writeHosts "k8s-cluster" "[masters]\n10.0.0.1\n\n[workers]\n\n",
            .ansiblePlaybook "k8s-cluster" "install-k8s.yml"
              [("extra_cert", "10.0.0.1"), ("release", "ci/latest")],
            .writeKubeconfig "kubeconfig" ⟨[("kubernetes", ⟨"https://10.0.0.1:6443"⟩)]⟩,
            .setenv "KUBECONFIG" "/home/ci/kubeconfig",
            .kubectlGetNodes, .dumpClusterLogs]) := by
  refine ⟨by decide, rfl, ?_⟩
  have hpro : upPrologue envEmptyWorkers New []
      = (dReady, none,
          [.commonInitialize, .mkdir "k8s-cluster", .dumpCommonConfig "k8s-cluster",
            .dumpProviderConfig .powervs "k8s-cluster"]) := by rfl
  have hloop : applyLoop envEmptyWorkers dReady 0
      [.commonInitialize, .mkdir "k8s-cluster", .dumpCommonConfig "k8s-cluster",
        .dumpProviderConfig .powervs "k8s-cluster"]
      = (none, [.commonInitialize, .mkdir "k8s-cluster", .dumpCommonConfig "k8s-cluster",
            .dumpProviderConfig .powervs "k8s-cluster",
            .terraformApply "k8s-cluster" "powervs" true,
            .terraformOutput "k8s-cluster" "powervs"]) := by
    rw [applyLoop]
    rfl
  unfold Up
  rw [hpro]
  simp only
  rw [hloop]
  rfl

/-- With an empty list of masters the code has no guard either: the playbook is run, and
`Up` then panics at the unguarded index `inventory.Masters[0]` (line 400),
`SetKubeconfig` being set. -/
theorem upAfterApply_empty_masters :
    (upAfterApply envEmptyMasters dReady []).2
        = (.panicked "index out of range [0] with length 0",
           [.terraformOutput "k8s-cluster" "powervs",
            .createHosts "k8s-cluster",
            .writeHosts "k8s-cluster" "[masters]\n\n[workers]\n10.0.0.2\n\n",
            .ansiblePlaybook "k8s-cluster" "install-k8s.yml"
              [("extra_cert", ""), ("release", "ci/latest")]]) := by
  rfl

/-- C4 (amended): for every provider variant and every raw output that is well-formed
(as in C2), whose masters list is not empty and whose workers key is present and
resolves to the empty list, the normalization accepts the output and yields the
inventory with the empty workers list; `Up` goes on to create the inventory file; and
when the file is created and written and the common configuration is flattened, `Up`
writes the text of this inventory and starts the configuration-management run. Nothing
is said of an empty masters list. -/
theorem upAfterApply_empty_role (env : Env) (d : Deployer) (h : List Event)
    (raw : GoMap JVal) (mv wv : JVal) (ms ws : List String)
    (hout : env.terraformOutput d.tmpDir d.TargetProvider h = .ok raw)
    (hkeys : (GoMap.keys raw).Nodup)
    (hm : GoMap.find raw "masters" = some mv) (hw : GoMap.find raw "workers" = some wv)
    (hshape : if d.TargetProvider = "vpc" then
        vpcAddresses mv = some ms ∧ vpcAddresses wv = some ws
      else powervsAddresses mv = some ms ∧ powervsAddresses wv = some ws
        ∧ ∀ kv ∈ raw, (unmarshalSlice kv.2).isSome = true)
    (hms : ms ≠ []) (hws : ws = []) :
    (∃ inv, normalize env.sprintV env.jsonTypeError d.TargetProvider raw d.machineIPs
          = (.ok inv, d.machineIPs ++ ms ++ ws)
        ∧ inv = { Masters := ms, Workers := ws }
        ∧ inv.Masters ≠ [] ∧ inv.Workers = [])
    ∧ (∃ evs, (upAfterApply env d h).2.2
        = h ++ [.terraformOutput d.tmpDir d.TargetProvider, .createHosts d.tmpDir] ++ evs)
    ∧ (∀ params base,
        env.createHosts d.tmpDir (h ++ [.terraformOutput d.tmpDir d.TargetProvider]) = none →
        env.writeHosts d.tmpDir (inventoryText ⟨ms, ws⟩)
          (h ++ [.terraformOutput d.tmpDir d.TargetProvider, .createHosts d.tmpDir]) = none →
        env.marshalCommonProvider (stringsJoin ms ",")
          (h ++ [.terraformOutput d.tmpDir d.TargetProvider, .createHosts d.tmpDir,
                 .writeHosts d.tmpDir (inventoryText ⟨ms, ws⟩)]) = .ok params →
        env.unmarshalVars params = .ok base →
        ∃ evs, (upAfterApply env d h).2.2
          = h ++ [.terraformOutput d.tmpDir d.TargetProvider, .createHosts d.tmpDir,
                  .writeHosts d.tmpDir (inventoryText ⟨ms, ws⟩),
                  .ansiblePlaybook d.tmpDir d.Playbook (mapsInsert base d.ExtraVars)] ++ evs) := by
  have hnorm := normalize_ok env.sprintV env.jsonTypeError d.TargetProvider raw mv wv ms ws
    d.machineIPs hkeys hm hw hshape
  have hup := upAfterApply_ok env d h raw ⟨ms, ws⟩ _ hout hnorm
  refine ⟨⟨_, hnorm, rfl, hms, hws⟩, ?_, ?_⟩
  · obtain ⟨evs, hevs⟩ := renderInventory_history env d ⟨ms, ws⟩
      (h ++ [.terraformOutput d.tmpDir d.TargetProvider])
    rcases hr : renderInventory env d ⟨ms, ws⟩
      (h ++ [.terraformOutput d.tmpDir d.TargetProvider]) with ⟨err, h1⟩
    rw [hr] at hevs hup
    simp only at hevs
    cases err with
    | some e =>
      rw [hup]
      exact ⟨evs, by simp [hevs]⟩
    | none =>
      simp only at hup
      rw [hup]
      simp only
      obtain ⟨evs1, hevs1⟩ := upConfigure_history env
        { d with machineIPs := d.machineIPs ++ ms ++ ws } ⟨ms, ws⟩ h1
      rw [hevs1, hevs]
      exact ⟨evs ++ evs1, by simp⟩
  · intro params base hcreate hwrite hmar hun
    have hr := renderInventory_ok env d ⟨ms, ws⟩ _ hcreate (by simpa using hwrite)
    rw [hr] at hup
    simp only at hup
    rw [hup]
    simp only
    obtain ⟨evs1, hevs1⟩ := upConfigure_playbook env
      { d with machineIPs := d.machineIPs ++ ms ++ ws } ⟨ms, ws⟩
      (h ++ [.terraformOutput d.tmpDir d.TargetProvider]
        ++ [.createHosts d.tmpDir, .writeHosts d.tmpDir (inventoryText ⟨ms, ws⟩)])
      params base (by simpa using hmar) hun
    rw [hevs1]
    exact ⟨evs1, by simp⟩

/-- C4, at a concrete input: powervs, one master and an empty list of workers. -/
theorem upAfterApply_empty_role_witness :
    ∃ evs, (upAfterApply envEmptyWorkers dReady []).2.2
      = [] ++ [.terraformOutput dReady.tmpDir dReady.TargetProvider,
               .createHosts dReady.tmpDir] ++ evs :=
  (upAfterApply_empty_role envEmptyWorkers dReady [] rawEmptyWorkers
    (.arr [.str "10.0.0.1"]) (.arr []) ["10.0.0.1"] [] rfl (by decide) rfl rfl
    (by
      refine ⟨rfl, rfl, ?_⟩
      intro kv hkv
      simp only [rawEmptyWorkers, List.mem_cons, List.mem_singleton, List.not_mem_nil,
        or_false] at hkv
      rcases hkv with h | h <;> subst h <;> rfl)
    (List.cons_ne_nil _ _) rfl).2.1

/-- C6: for every base mapping (the flattened common configuration) and every override
mapping `ExtraVars` with distinct keys, the merged mapping gives every key of `ExtraVars`
its `ExtraVars` value, whether or not the base has the key, and gives every other key
what the base gives it (its base value, or nothing when the base has no such key); and
this merged mapping is the one handed to the playbook run. -/
theorem combinedAnsibleVars_precedence (base extra : GoMap String)
    (hkeys : (GoMap.keys extra).Nodup) :
    (∀ k v, GoMap.find extra k = some v → GoMap.find (mapsInsert base extra) k = some v)
    ∧ (∀ k, GoMap.find extra k = none →
        GoMap.find (mapsInsert base extra) k = GoMap.find base k)
    ∧ (∀ (env : Env) (d : Deployer) (inv : AnsibleInventory) (h : List Event) (params : String),
        env.marshalCommonProvider (stringsJoin inv.Masters ",") h = .ok params →
        env.unmarshalVars params = .ok base → d.ExtraVars = extra →
        ∃ evs, (upConfigure env d inv h).2
          = h ++ [.ansiblePlaybook d.tmpDir d.Playbook (mapsInsert base extra)] ++ evs) := by
  refine ⟨?_, ?_, ?_⟩
  · intro k v hk
    have h1 := GoMap.find_foldl_set (fun v : String => v) extra base k hkeys
    rw [hk] at h1
    exact h1
  · intro k hk
    have h1 := GoMap.find_foldl_set (fun v : String => v) extra base k hkeys
    rw [hk] at h1
    exact h1
  · intro env d inv h params hmar hun hextra
    subst hextra
    exact upConfigure_playbook env d inv h params base hmar hun

/-- C6, at a concrete input: the key `release` is in the base and in the overrides. -/
theorem combinedAnsibleVars_precedence_witness :
    (GoMap.keys sampleExtra).Nodup
    ∧ GoMap.find sampleBase "release" = some "ci/latest"
    ∧ GoMap.find (mapsInsert sampleBase sampleExtra) "release" = some "v1.31.0" :=
  ⟨by decide, by decide,
    (combinedAnsibleVars_precedence sampleBase sampleExtra (by decide)).1
      "release" "v1.31.0" (by decide)⟩

/-- C7: for every inventory, executing the inventory template gives exactly the text
`[masters]`, the masters one per line in inventory order, an empty line, `[workers]`, the
workers one per line in inventory order, an empty line; the parsed template is the
constant of the source; and in every environment, directory and history in which the
file is created and written, the render phase of `Up` creates the file `hosts` and writes
this text, which depends on the inventory alone. -/
theorem inventory_rendering (inv : AnsibleInventory) :
    executeTemplate inv inventoryTemplate
        = .ok ("[masters]\n" ++ concat (inv.Masters.map (fun m => m ++ "\n"))
            ++ "\n[workers]\n" ++ concat (inv.Workers.map (fun w => w ++ "\n")) ++ "\n")
    ∧ concat (inventoryTemplate.map TNode.source) = inventoryTemplateText
    ∧ (∀ (env : Env) (d : Deployer) (h : List Event),
        env.createHosts d.tmpDir h = none →
        env.writeHosts d.tmpDir
          ("[masters]\n" ++ concat (inv.Masters.map (fun m => m ++ "\n"))
            ++ "\n[workers]\n" ++ concat (inv.Workers.map (fun w => w ++ "\n")) ++ "\n")
          (h ++ [.createHosts d.tmpDir]) = none →
        renderInventory env d inv h
          = (none, h ++ [.createHosts d.tmpDir, .writeHosts d.tmpDir
              ("[masters]\n" ++ concat (inv.Masters.map (fun m => m ++ "\n"))
                ++ "\n[workers]\n" ++ concat (inv.Workers.map (fun w => w ++ "\n")) ++ "\n")])) :=
  ⟨executeTemplate_inventory inv, by decide,
    fun env d h hcreate hwrite => renderInventory_ok env d inv h hcreate hwrite⟩

/-- C7, at a concrete input: one master and two workers. -/
theorem inventory_rendering_witness :
    renderInventory envOk dReady ⟨["10.0.0.1"], ["10.0.0.2", "10.0.0.3"]⟩ []
      = (none, [] ++ [.createHosts dReady.tmpDir, .writeHosts dReady.tmpDir
          ("[masters]\n" ++ concat (["10.0.0.1"].map (fun m => m ++ "\n"))
            ++ "\n[workers]\n" ++ concat (["10.0.0.2", "10.0.0.3"].map (fun w => w ++ "\n"))
            ++ "\n")]) :=
  (inventory_rendering ⟨["10.0.0.1"], ["10.0.0.2", "10.0.0.3"]⟩).2.2 envOk dReady [] rfl rfl

/-- C8 (as stated) fails: when the probe exits with status zero and prints no line,
`IsUp` returns `false` together with a non-nil error. -/
theorem IsUp_no_lines_returns_error :
    envNoNodes.kubectlGetNodes [] = (none, [])
    ∧ (IsUp envNoNodes []).1
        = (false, some (.errorf "project had no nodes active: k8s-cluster"))
    ∧ (IsUp envNoNodes []).1 ≠ (false, none) :=
  ⟨rfl, by rfl, by decide⟩

/-- C8 (amended): when the probe exits with status zero and prints no line, `IsUp`
returns `false` together with the error `project had no nodes active: ` followed by the
cluster name: the cluster is reported as down, with a non-nil error. -/
theorem IsUp_zero_lines (env : Env) (h : List Event)
    (hprobe : env.kubectlGetNodes h = (none, [])) :
    IsUp env h
      = ((false, some (.errorf ("project had no nodes active: "
          ++ env.clusterName (h ++ [.kubectlGetNodes])))), h ++ [.kubectlGetNodes]) := by
  simp [IsUp, hprobe]

/-- C8, at a concrete input. -/
theorem IsUp_zero_lines_witness :
    envNoNodes.kubectlGetNodes [] = (none, [])
    ∧ IsUp envNoNodes []
      = ((false, some (.errorf ("project had no nodes active: "
          ++ envNoNodes.clusterName ([] ++ [.kubectlGetNodes])))), [] ++ [.kubectlGetNodes]) :=
  ⟨rfl, IsUp_zero_lines envNoNodes [] rfl⟩

/-- C9: for every error of the probe run (a non-zero exit status) and every list of
captured output lines, `IsUp` returns `false` together with the JUnit error that wraps
the error of the run and carries the lines, in order and joined by newlines; the probe is
run once: the history grows by one `kubectl` event. -/
theorem IsUp_probe_failure (env : Env) (h : List Event) (err : String) (lines : List String)
    (hprobe : env.kubectlGetNodes h = (some err, lines)) :
    IsUp env h
      = ((false, some (.junit err (stringsJoin lines "\n"))), h ++ [.kubectlGetNodes]) := by
  simp [IsUp, hprobe]

/-- C9, at a concrete input: a failed probe with two lines of output. -/
theorem IsUp_probe_failure_witness :
    envProbeFails.kubectlGetNodes []
        = (some "exit status 1", ["error: connection refused", "unable to list nodes"])
    ∧ IsUp envProbeFails []
      = ((false, some (.junit "exit status 1"
          (stringsJoin ["error: connection refused", "unable to list nodes"] "\n"))),
         [] ++ [.kubectlGetNodes]) :=
  ⟨rfl, IsUp_probe_failure envProbeFails [] "exit status 1"
    ["error: connection refused", "unable to list nodes"] rfl⟩

/-- C5 (as stated) fails: for a cluster entry whose server URL parses and has no port,
`setKubeconfig` returns the error of `SplitHostPort` and writes nothing. -/
theorem setKubeconfig_no_port_fails :
    envNoPort.loadKubeconfig [] = .ok ⟨[("kubernetes", ⟨"https://10.0.0.1"⟩)]⟩
    ∧ envNoPort.urlParse "https://10.0.0.1" = some ⟨"https", "", none, "10.0.0.1", "", "", ""⟩
    ∧ SplitHostPort "10.0.0.1" = .error .missingPort
    ∧ setKubeconfig envNoPort "10.0.0.5" []
        = (.returned (some (.errorf "errored while SplitHostPort")), []) :=
  ⟨rfl, rfl, by rfl, by rfl⟩

/-- C5 (amended): for every new host, when the client configuration is found and
loaded and the server URL of every cluster entry parses.
First: when moreover every server URL has an explicit port (`SplitHostPort` succeeds on
its host part), `filepath.Abs` gives the absolute path and `os.Setenv` succeeds,
`setKubeconfig` returns nil; the configuration it writes has the same entries, in which
each server URL is the old URL with only the host part replaced: by the new host joined
with the old port, which splits again into the new host and the old port when the new
host has no brackets; and `KUBECONFIG` is set to the absolute path.
Second: when some server URL has no explicit port (`SplitHostPort` fails on its host
part), `setKubeconfig` returns the error `errored while SplitHostPort` and the history
is unchanged: nothing is written.
Third: `SplitHostPort` fails, for a missing port, on every host without a colon. -/
theorem setKubeconfig_rewrites_hosts (env : Env) (host : String) (h : List Event)
    (config : Config)
    (hstat : env.statKubeconfig h = none)
    (hload : env.loadKubeconfig h = .ok config)
    (hparse : ∀ nc ∈ config.Clusters, ∃ u, env.urlParse nc.2.Server = some u) :
    ((∀ nc ∈ config.Clusters, ∀ u, env.urlParse nc.2.Server = some u →
          ∃ hp, SplitHostPort u.Host = .ok hp) →
      ∀ abs, env.filepathAbs env.kubeconfigPath = .ok abs →
        (∀ hist, env.setenv "KUBECONFIG" abs hist = none) →
        ∃ clusters,
          setKubeconfig env host h
            = (.returned none,
                h ++ [.writeKubeconfig env.kubeconfigPath ⟨clusters⟩,
                      .setenv "KUBECONFIG" abs])
          ∧ List.Forall₂ (fun old new => new.1 = old.1
              ∧ ∃ u oldHost port, env.urlParse old.2.Server = some u
                ∧ SplitHostPort u.Host = .ok (oldHost, port)
                ∧ new.2.Server = env.urlString { u with Host := JoinHostPort host port }
                ∧ ('[' ∉ host.data → ']' ∉ host.data →
                    SplitHostPort (JoinHostPort host port) = .ok (host, port)))
              config.Clusters clusters)
    ∧ ((∃ nc ∈ config.Clusters, ∃ u e, env.urlParse nc.2.Server = some u
          ∧ SplitHostPort u.Host = .error e) →
        setKubeconfig env host h
          = (.returned (some (.errorf "errored while SplitHostPort")), h))
    ∧ (∀ s : String, ':' ∉ s.data → SplitHostPort s = .error .missingPort) := by
  refine ⟨?_, ?_, SplitHostPort_no_colon⟩
  · intro hports abs habs hsetenv
    have hall : ∀ nc ∈ config.Clusters, ∃ u hp, env.urlParse nc.2.Server = some u
        ∧ SplitHostPort u.Host = .ok hp := by
      intro nc hnc
      obtain ⟨u, hu⟩ := hparse nc hnc
      obtain ⟨hp, hhp⟩ := hports nc hnc u hu
      exact ⟨u, hp, hu, hhp⟩
    obtain ⟨out, hout, hrel⟩ := rewriteClusters_ok env host config.Clusters hall
    refine ⟨out, ?_, hrel⟩
    simp [setKubeconfig, hstat, hload, hout, habs, hsetenv]
  · intro hbad
    have hr := rewriteClusters_split_error env host config.Clusters hparse hbad
    simp [setKubeconfig, hstat, hload, hr]

/-- C5, at two concrete inputs: one cluster entry with server `https://192.168.0.1:6443`,
which is rewritten, and one with server `https://10.0.0.1`, which is refused. -/
theorem setKubeconfig_rewrites_hosts_witness :
    (∃ clusters,
      setKubeconfig envOk "10.0.0.1" []
        = (.returned none,
            [] ++ [.writeKubeconfig envOk.kubeconfigPath ⟨clusters⟩,
                   .setenv "KUBECONFIG" "/home/ci/kubeconfig"])
      ∧ List.Forall₂ (fun old new => new.1 = old.1
          ∧ ∃ u oldHost port, envOk.urlParse old.2.Server = some u
            ∧ SplitHostPort u.Host = .ok (oldHost, port)
            ∧ new.2.Server = envOk.urlString { u with Host := JoinHostPort "10.0.0.1" port }
            ∧ ('[' ∉ ("10.0.0.1" : String).data → ']' ∉ ("10.0.0.1" : String).data →
                SplitHostPort (JoinHostPort "10.0.0.1" port) = .ok ("10.0.0.1", port)))
          [("kubernetes", (⟨"https://192.168.0.1:6443"⟩ : Cluster))] clusters)
    ∧ setKubeconfig envNoPort "10.0.0.5" []
        = (.returned (some (.errorf "errored while SplitHostPort")), []) :=
  ⟨(setKubeconfig_rewrites_hosts envOk "10.0.0.1" []
      ⟨[("kubernetes", ⟨"https://192.168.0.1:6443"⟩)]⟩ rfl rfl
      (by
        intro nc hnc
        simp only [List.mem_singleton] at hnc
        subst hnc
        exact ⟨⟨"https", "", none, "192.168.0.1:6443", "", "", ""⟩, rfl⟩)).1
      (by
        intro nc hnc u hu
        simp only [List.mem_singleton] at hnc
        subst hnc
        have hu1 : u = ⟨"https", "", none, "192.168.0.1:6443", "", "", ""⟩ := by
          have h0 : envOk.urlParse "https://192.168.0.1:6443"
              = some ⟨"https", "", none, "192.168.0.1:6443", "", "", ""⟩ := rfl
          rw [h0] at hu
          exact (Option.some.inj hu).symm
        subst hu1
        exact ⟨("192.168.0.1", "6443"), by rfl⟩)
      "/home/ci/kubeconfig" rfl (fun _ => rfl),
   (setKubeconfig_rewrites_hosts envNoPort "10.0.0.5" []
      ⟨[("kubernetes", ⟨"https://10.0.0.1"⟩)]⟩ rfl rfl
      (by
        intro nc hnc
        simp only [List.mem_singleton] at hnc
        subst hnc
        exact ⟨⟨"https", "", none, "10.0.0.1", "", "", ""⟩, rfl⟩)).2.1
      ⟨("kubernetes", ⟨"https://10.0.0.1"⟩), List.mem_singleton.mpr rfl,
        ⟨"https", "", none, "10.0.0.1", "", "", ""⟩, .missingPort, rfl, by rfl⟩⟩

/-- The rewrite of the sample configuration, evaluated: the host is replaced and the
port 6443 is kept. -/
theorem setKubeconfig_sample :
    setKubeconfig envOk "10.0.0.1" []
      = (.returned none,
          [.writeKubeconfig "kubeconfig" ⟨[("kubernetes", ⟨"https://10.0.0.1:6443"⟩)]⟩,
           .setenv "KUBECONFIG" "/home/ci/kubeconfig"]) := by
  rfl

/-! ## Initialization and `Down` -/

/-- When the one-shot initialization runs in this call of `Down` and fails, `Down`
returns the error and `terraform.Destroy` is not called: the history is the one that the
initialization left. -/
theorem Down_init_fails_in_call (env : Env) (d : Deployer) (h : List Event) (err : GoError)
    (hfirst : d.doInit = false)
    (hfail : (initializeDeployer env d h).2.1 = some err) :
    (Down env d h).2
      = (.returned (some (.errorf ("down failed to init: " ++ err.text))),
          (initializeDeployer env d h).2.2) := by
  unfold Down init
  rcases hi : initializeDeployer env d h with ⟨d1, e1, h1⟩
  rw [hi] at hfail
  simp only at hfail
  subst hfail
  simp [hfirst]

/-- Once `d.doInit.Do` has been called, in whatever call and with whatever result,
`d.init` returns nil and `Down` calls `terraform.Destroy`. -/
theorem Down_after_init_called (env : Env) (d : Deployer) (h : List Event)
    (hdone : d.doInit = true) :
    ∃ o, Down env d h = (d, o, h ++ [.terraformDestroy d.tmpDir d.TargetProvider]) := by
  unfold Down init
  simp only [hdone, if_true]
  cases env.terraformDestroy d.tmpDir d.TargetProvider h with
  | none => exact ⟨_, rfl⟩
  | some e =>
    cases env.ignoreDestroy with
    | true => exact ⟨_, rfl⟩
    | false => exact ⟨_, rfl⟩

/-- C10 (the code departs from it): on a fresh deployer, with the cluster directory
already there, `Up` fails in the one-shot initialization, and the `Down` that follows
does not return an error: it calls `terraform.Destroy` on that directory and returns
nil. -/
theorem Down_after_failed_init_destroys :
    (runCalls envDirExists [.up, .down] New []).2
      = ([.returned (some (.errorf ("up failed to init: directory named k8s-cluster "
            ++ "already exist, please choose a different cluster-name"))),
          .returned none],
         [.commonInitialize, .terraformDestroy "k8s-cluster" "powervs"]) := by
  rfl

/-- The same departure with two calls of `Down` when `terraform` is not installed: the
first returns the error of the initialization, the second calls `terraform.Destroy`, on
the empty directory name. -/
theorem Down_twice_after_failed_init :
    (runCalls envNoTerraform [.down, .down] New []).2
      = ([.returned (some (.errorf ("down failed to init: failed to find terraform in the "
            ++ "test environment: executable file not found in $PATH"))),
          .returned none],
         [.terraformDestroy "" "powervs"]) := by
  rfl

end Kubetest2TF
